import Mathlib

/-!
Shallow embedding of `lib/varFinder.py` (pubMunch variant finder).

Conventions used throughout this development:

* Python `int` is modelled as `Int`; regex-captured position groups
  (which match `[1-9][0-9]*`) are modelled as `Nat`.
* Python functions that can raise (`KeyError`, `NameError`, failed
  `assert`) are modelled in `Except Unit`; `.error ()` stands for an
  uncaught Python exception, so such a call produces no value at all.
* A Python value that may be `None` is an `Option`.
* Python dictionaries are modelled as insertion-ordered association
  lists; `dict[k] = v` is `upsert`, `defaultdict(list)[k].append` is
  `appendAt`.
* External stores (sequence db, alignment db, dbSNP db, the pattern
  table) are parameters of the embedded functions: the embedding is
  quantified over their behaviour.
* The amino-acid tables (`threeToOneLower`, `oneToThree`, `aaToDna`,
  `dnaToAa`) live in `pubSeqTables.py`, which is part of this
  repository but not among the provided sources; they are modelled
  from the spec (standard genetic code / three-letter code tables).
-/

set_option maxHeartbeats 1000000
set_option maxRecDepth 8192

deriving instance DecidableEq for Except

namespace VarFinder

/-- Python `str.upper()` restricted to the ASCII letters that occur in
sequence data. -/
def asciiUpper (s : String) : String := String.mk (s.data.map Char.toUpper)

/-- Python `str.lower()` for ASCII letters. -/
def asciiLower (s : String) : String := String.mk (s.data.map Char.toLower)

/-- Python `"%s" % x` for an optional string: `None` renders as `"None"`. -/
def fmtOpt : Option String → String
  | some s => s
  | none => "None"

/-- Reading a value that Python would fetch with a raising lookup
(`dict[k]`, reading a possibly-unbound local): absence is an uncaught
exception. -/
def req {α : Type} : Option α → Except Unit α
  | some a => .ok a
  | none => .error ()

/-- Python slice `s[i:j]` with negative-index normalisation and clamping. -/
def pySlice (s : String) (i j : Int) : String :=
  let n : Int := (s.data.length : Int)
  let lo : Nat := (if i < 0 then max (n + i) 0 else min i n).toNat
  let hi : Nat := (if j < 0 then max (n + j) 0 else min j n).toNat
  String.mk ((s.data.drop lo).take (hi - lo))

/-- Python `needle in hay` for strings (substring containment). -/
def pyIn (needle hay : String) : Bool :=
  (List.range (hay.data.length + 1)).any
    (fun i => (hay.data.drop i).take needle.data.length = needle.data)

/-- Python `str.strip(chars)`: drop characters of `chars` from both ends. -/
def pyStripSet (chars s : String) : String :=
  let l := s.data.dropWhile (fun c => chars.data.contains c)
  String.mk ((l.reverse.dropWhile (fun c => chars.data.contains c)).reverse)

/-- Python `s.startswith(prefix)`. -/
def pyStartswith (s pre : String) : Bool :=
  s.data.take pre.data.length = pre.data

/-- Python `str.strip()` with no argument: strip ASCII whitespace from
both ends (used for `match.group(0).strip()`). -/
def pyStrip (s : String) : String := pyStripSet " \t\n\x0b\x0c\r" s

/-- Module default: `allowTwoBpVariants = False` (two-base-pair protein
variants are disabled to reduce false positives). -/
def allowTwoBpVariants : Bool := false

/-- Module default: `doShuffle = False` (the random-shuffle fuzz mode is
off, so the translation-consistency assertion is active). -/
def doShuffle : Bool := false

/-- Modelled from the spec: the three-letter → one-letter amino-acid
translation table of `pubSeqTables.threeToOneLower` (keys lower-case,
values the upper-case one-letter code), which is code of this
repository not provided under `src/`. -/
def threeToOneList : List (String × String) :=
  [("ala", "A"), ("arg", "R"), ("asn", "N"), ("asp", "D"), ("cys", "C"),
   ("gln", "Q"), ("glu", "E"), ("gly", "G"), ("his", "H"), ("ile", "I"),
   ("leu", "L"), ("lys", "K"), ("met", "M"), ("phe", "F"), ("pro", "P"),
   ("ser", "S"), ("thr", "T"), ("trp", "W"), ("tyr", "Y"), ("val", "V"),
   ("ter", "*"), ("stop", "*"), ("x", "X")]

/-- Modelled from the spec: lookup in `pubSeqTables.threeToOneLower`. -/
def threeToOneLower (s : String) : Option String :=
  threeToOneList.lookup s

/-- Modelled from the spec: the one-letter → three-letter table
`pubSeqTables.oneToThree` (values as they appear in HGVS strings,
e.g. `Arg`), code of this repository not provided under `src/`. -/
def oneToThreeList : List (String × String) :=
  [("A", "Ala"), ("R", "Arg"), ("N", "Asn"), ("D", "Asp"), ("C", "Cys"),
   ("Q", "Gln"), ("E", "Glu"), ("G", "Gly"), ("H", "His"), ("I", "Ile"),
   ("L", "Leu"), ("K", "Lys"), ("M", "Met"), ("F", "Phe"), ("P", "Pro"),
   ("S", "Ser"), ("T", "Thr"), ("W", "Trp"), ("Y", "Tyr"), ("V", "Val"),
   ("*", "Ter"), ("X", "X")]

/-- Modelled from the spec: lookup in `pubSeqTables.oneToThree`. -/
def oneToThree (s : String) : Option String :=
  oneToThreeList.lookup s

/-- Modelled from the spec: `pubSeqTables.aaToDna`, the synonymous-codon
sets of the standard genetic code (code of this repository not provided
under `src/`); an unknown residue has no codons (Python would raise
`KeyError`, claims only quantify over residues of the alphabet). -/
def aaToDna (c : Char) : List String :=
  match c with
  | 'F' => ["TTT", "TTC"]
  | 'L' => ["TTA", "TTG", "CTT", "CTC", "CTA", "CTG"]
  | 'I' => ["ATT", "ATC", "ATA"]
  | 'M' => ["ATG"]
  | 'V' => ["GTT", "GTC", "GTA", "GTG"]
  | 'S' => ["TCT", "TCC", "TCA", "TCG", "AGT", "AGC"]
  | 'P' => ["CCT", "CCC", "CCA", "CCG"]
  | 'T' => ["ACT", "ACC", "ACA", "ACG"]
  | 'A' => ["GCT", "GCC", "GCA", "GCG"]
  | 'Y' => ["TAT", "TAC"]
  | 'H' => ["CAT", "CAC"]
  | 'Q' => ["CAA", "CAG"]
  | 'N' => ["AAT", "AAC"]
  | 'K' => ["AAA", "AAG"]
  | 'D' => ["GAT", "GAC"]
  | 'E' => ["GAA", "GAG"]
  | 'C' => ["TGT", "TGC"]
  | 'W' => ["TGG"]
  | 'R' => ["CGT", "CGC", "CGA", "CGG", "AGA", "AGG"]
  | 'G' => ["GGT", "GGC", "GGA", "GGG"]
  | '*' => ["TAA", "TAG", "TGA"]
  | _ => []

/-- The amino-acid alphabet: the residues `aaToDna` (and hence
`backTrans`) is defined on. -/
def aaKeys : List Char :=
  ['F', 'L', 'I', 'M', 'V', 'S', 'P', 'T', 'A', 'Y', 'H', 'Q', 'N', 'K',
   'D', 'E', 'C', 'W', 'R', 'G', '*']

/-- Modelled from the spec: `pubSeqTables.dnaToAa`, the standard codon →
amino-acid table (code of this repository not provided under `src/`).
An unknown key is `none` (Python: `KeyError`). -/
def dnaToAa (codon : String) : Option Char :=
  match codon with
  | "TTT" => some 'F' | "TTC" => some 'F'
  | "TTA" => some 'L' | "TTG" => some 'L'
  | "CTT" => some 'L' | "CTC" => some 'L' | "CTA" => some 'L' | "CTG" => some 'L'
  | "ATT" => some 'I' | "ATC" => some 'I' | "ATA" => some 'I'
  | "ATG" => some 'M'
  | "GTT" => some 'V' | "GTC" => some 'V' | "GTA" => some 'V' | "GTG" => some 'V'
  | "TCT" => some 'S' | "TCC" => some 'S' | "TCA" => some 'S' | "TCG" => some 'S'
  | "AGT" => some 'S' | "AGC" => some 'S'
  | "CCT" => some 'P' | "CCC" => some 'P' | "CCA" => some 'P' | "CCG" => some 'P'
  | "ACT" => some 'T' | "ACC" => some 'T' | "ACA" => some 'T' | "ACG" => some 'T'
  | "GCT" => some 'A' | "GCC" => some 'A' | "GCA" => some 'A' | "GCG" => some 'A'
  | "TAT" => some 'Y' | "TAC" => some 'Y'
  | "CAT" => some 'H' | "CAC" => some 'H'
  | "CAA" => some 'Q' | "CAG" => some 'Q'
  | "AAT" => some 'N' | "AAC" => some 'N'
  | "AAA" => some 'K' | "AAG" => some 'K'
  | "GAT" => some 'D' | "GAC" => some 'D'
  | "GAA" => some 'E' | "GAG" => some 'E'
  | "TGT" => some 'C' | "TGC" => some 'C'
  | "TGG" => some 'W'
  | "CGT" => some 'R' | "CGC" => some 'R' | "CGA" => some 'R' | "CGG" => some 'R'
  | "AGA" => some 'R' | "AGG" => some 'R'
  | "GGT" => some 'G' | "GGC" => some 'G' | "GGA" => some 'G' | "GGG" => some 'G'
  | "TAA" => some '*' | "TAG" => some '*' | "TGA" => some '*'
  | _ => none

/-- Inner loop of `backTrans`: extend every sequence built so far by
every codon of the next residue (codon-major order, appending at the
end, exactly as the Python double loop does). -/
def backTransGo (rest : List Char) (sequences : List String) : List String :=
  match rest with
  | [] => sequences
  | a :: tail =>
      backTransGo tail
        (((aaToDna a).map (fun codon => sequences.map (fun s => s ++ codon))).flatten)

/-- `backTrans(aa)`: all nucleotide strings that back-translate the
residue string `aa`.  The Python code indexes `aa[0]` and so raises on
an empty input; the empty case here returns `[]` and is never used by a
theorem (all claims assume a non-empty residue string). -/
def backTrans (aa : String) : List String :=
  match aa.data with
  | [] => []
  | c :: rest => backTransGo rest (aaToDna c)

/-- Chunked core of `translate`: consume three characters at a time,
look each (upper-cased) codon up in `dnaToAa`.  A trailing chunk of
fewer than three characters is a failed table lookup in Python
(`KeyError`), hence `.error`. -/
def translateGo (l : List Char) : Except Unit (List Char) :=
  match l with
  | [] => .ok []
  | c1 :: c2 :: c3 :: rest => do
      let aa ← req (dnaToAa (asciiUpper (String.mk [c1, c2, c3])))
      let restAa ← translateGo rest
      .ok (aa :: restAa)
  | _ => .error ()

/-- `translate(dna)`: the amino-acid translation of a DNA string. -/
def translate (dna : String) : Except Unit String :=
  (translateGo dna.data).map String.mk

/-- Index-tracking list of positions (with both characters) at which two
character lists differ; the positional bookkeeping of `firstDiffNucl`. -/
def diffsFrom (i : Nat) : List Char → List Char → List (Nat × Char × Char)
  | c1 :: t1, c2 :: t2 =>
      if c1 ≠ c2 then (i, c1, c2) :: diffsFrom (i + 1) t1 t2
      else diffsFrom (i + 1) t1 t2
  | _, _ => []

/-- All positions at which two equal-length strings differ. -/
def diffs (s1 s2 : List Char) : List (Nat × Char × Char) :=
  diffsFrom 0 s1 s2

/-- `firstDiffNucl(str1, str2, maxDiff)`: `none` when the strings are
equal or differ in more than `maxDiff` positions; the single difference
as `(pos, old, new)`; or, for exactly two adjacent differences, the
two-character difference starting at the first position.  (The source
asserts `len(str1) == len(str2)`; every call site in this file supplies
equal lengths.) -/
def firstDiffNucl (str1 str2 : List Char) (maxDiff : Nat) :
    Option (Nat × String × String) :=
  if str1 = str2 then none
  else
    let ds := diffs str1 str2
    if maxDiff < ds.length then none
    else
      match ds with
      | [(p, a, b)] => some (p, String.mk [a], String.mk [b])
      | [(p1, a1, b1), (p2, a2, b2)] =>
          if p1 + 1 = p2 then some (p1, String.mk [a1, a2], String.mk [b1, b2])
          else none
      | _ => none

/-- Set-insertion used to model Python's `set.add` on the result set of
`possibleDnaChanges` (insertion-ordered deduplicating append). -/
def dedupAdd (ret : List (Nat × String × String)) (t : Nat × String × String) :
    List (Nat × String × String) :=
  if t ∈ ret then ret else ret ++ [t]

/-- One fold step of the `possibleDnaChanges` loop: skip a `None`
difference, otherwise add it to the result set. -/
def pdcStep (f : String → Option (Nat × String × String))
    (ret : List (Nat × String × String)) (c : String) :
    List (Nat × String × String) :=
  match f c with
  | none => ret
  | some t => dedupAdd ret t

/-- `possibleDnaChanges(origAa, mutAa, origDna)`: the deduplicated
`(relativePosition, oldBase, newBase)` tuples obtained by comparing each
back-translation of `mutAa` to the (upper-cased) reference codon string.
`origAa` is unused by the source beyond logging. -/
def possibleDnaChanges (origAa mutAa origDna : String) :
    List (Nat × String × String) :=
  let maxDiff := if allowTwoBpVariants then 2 else 1
  let origDnaU := asciiUpper origDna
  (backTrans mutAa).foldl
    (fun ret mutDna =>
      match firstDiffNucl origDnaU.data mutDna.data maxDiff with
      | none => ret
      | some t => dedupAdd ret t)
    []

/-- Direct embedding of `class VariantDescription`.  The Python field
`end` is spelled `endPos` (`end` is a Lean keyword); `geneId` (only ever
`""` or Python `None`, and never read by the embedded code) is kept as a
plain string with `""` for both. -/
structure VariantDescription where
  mutType : String
  seqType : String
  seqId : Option String
  geneId : String
  start : Int
  endPos : Int
  origSeq : Option String
  mutSeq : Option String
  origStr : String
  offset : Int
deriving DecidableEq, Repr

/-- The module-level `blackList` set of `(origSeq, position, mutSeq)`
triples, transcribed verbatim (list membership models set membership;
the source set also contains duplicates of some entries). -/
def blackList : List (String × Nat × String) :=
  [("E", 2, "F"),
   ("D", 11, "S"), ("D", 12, "S"), ("D", 13, "S"), ("D", 14, "S"),
   ("D", 15, "S"), ("D", 16, "S"),
   ("A", 84, "M"), ("A", 84, "P"), ("A", 94, "P"), ("A", 94, "P"),
   ("C", 127, "I"), ("C", 86, "M"), ("C", 86, "P"),
   ("L", 283, "R"), ("H", 96, "V"), ("L", 5178, "Y"),
   ("L", 89, "M"), ("L", 89, "P"), ("L", 929, "S"),
   ("T", 89, "G"), ("T", 47, "D"), ("T", 84, "M"), ("T", 98, "G"),
   ("S", 288, "C"), ("T", 229, "C"),
   ("F", 442, "A"), ("A", 101, "D"), ("A", 2, "H"), ("A", 375, "M"),
   ("A", 375, "P"), ("A", 529, "L"), ("A", 6, "L"), ("B", 10, "R"),
   ("B", 10, "S"), ("B", 1203, "L"), ("C", 2, "M"), ("C", 2, "W"),
   ("B", 16, "V"), ("B", 35, "M"), ("B", 3, "D"), ("B", 46, "M"),
   ("C", 33, "A"), ("C", 4, "I"), ("C", 127, "I"), ("C", 463, "A"),
   ("C", 611, "B"), ("C", 831, "L"), ("D", 18, "T"), ("D", 1, "B"),
   ("D", 2, "N"), ("D", 422, "T"), ("D", 8, "G"), ("F", 36, "E"),
   ("F", 36, "P"), ("F", 11, "G"), ("F", 1, "B"), ("F", 4, "N"),
   ("G", 14, "D"), ("G", 1, "B"), ("G", 1, "E"), ("H", 2, "M"),
   ("H", 2, "P"), ("H", 48, "N"), ("H", 4, "M"), ("H", 4, "S"),
   ("H", 69, "V"), ("C", 3, "A"), ("C", 1, "R"), ("H", 766, "T"),
   ("I", 51, "T"), ("K", 562, "R"), ("L", 5178, "Y"), ("L", 2, "C"),
   ("L", 929, "S"), ("M", 59, "K"), ("M", 10, "K"), ("M", 10, "T"),
   ("M", 14, "K"), ("M", 22, "K"), ("M", 24, "K"), ("M", 25, "K"),
   ("M", 28, "K"), ("M", 33, "K"), ("M", 38, "K"), ("M", 9, "A"),
   ("M", 9, "K"), ("H", 1755, "A"), ("H", 295, "A"), ("H", 295, "R"),
   ("H", 322, "M"), ("H", 460, "M"), ("H", 510, "A"), ("H", 676, "B"),
   ("P", 3, "D"), ("R", 201, "C"), ("R", 2, "C"), ("S", 16, "Y"),
   ("S", 594, "S"), ("N", 303, "L"), ("N", 1003, "L"), ("N", 2307, "L"),
   ("N", 1108, "L"), ("T", 47, "D"), ("T", 27, "A"), ("T", 88, "M"),
   ("T", 98, "G"), ("H", 5, "D"), ("C", 1, "A"), ("C", 1, "D"),
   ("C", 2, "D"), ("C", 2, "G"), ("C", 2, "H"), ("C", 2, "N"),
   ("V", 79, "B"), ("V", 9, "P"), ("V", 10, "M"), ("V", 9, "M"),
   ("X", 16, "C")]

/-- `isBlacklisted(let1, pos, let2)`: fixed-set membership plus the two
chemical-symbol heuristics (`let2 in "ACDE"` is Python substring
containment). -/
def isBlacklisted (let1 : String) (pos : Nat) (let2 : String) : Bool :=
  if (let1, pos, let2) ∈ blackList then true
  else if let1 = "H" ∧ pos < 80 ∧ pyIn let2 "ACDE" then true
  else if let1 = "C" ∧ pos < 80 ∧ pyIn let2 "H" then true
  else false

/-- `makeHgvsStr(seqType, seqId, origSeq, pos, mutSeq, offset)`.  For a
`seqType` outside prot/cds/rna/dna the Python local `desc` is unbound
(`NameError`), hence `.error`.  `offset` is unused by the source. -/
def makeHgvsStr (seqType seqId : String) (origSeq : Option String)
    (pos : Int) (mutSeq : Option String) (offset : Int) : Except Unit String :=
  if seqType = "prot" then
    .ok (seqId ++ ":p." ++ ((origSeq.bind oneToThree).getD "None")
      ++ toString pos ++ ((mutSeq.bind oneToThree).getD "None"))
  else if seqType = "cds" then
    .ok (seqId ++ ":c." ++ toString pos ++ fmtOpt origSeq ++ ">" ++ fmtOpt mutSeq)
  else if seqType = "rna" then
    .ok (seqId ++ ":r." ++ toString pos ++ fmtOpt origSeq ++ ">" ++ fmtOpt mutSeq)
  else if seqType = "dna" then
    .ok (seqId ++ ":c." ++ toString pos ++ fmtOpt origSeq ++ ">" ++ fmtOpt mutSeq)
  else .error ()

/-- `VariantDescription.getName()`: the canonical (HGVS-style) name used
as the merge key.  With no `seqId` the name is `p.<origSeq><start><mutSeq>`
regardless of `seqType`; with a `seqId`, dbSnp variants use their stored
`origSeq` and everything else goes through `makeHgvsStr`. -/
def getName (v : VariantDescription) : Except Unit String :=
  match v.seqId with
  | none => .ok ("p." ++ fmtOpt v.origSeq ++ toString v.start ++ fmtOpt v.mutSeq)
  | some sid =>
      if v.mutType = "dbSnp" then .ok (fmtOpt v.origSeq)
      else makeHgvsStr v.seqType sid v.origSeq v.start v.mutSeq v.offset

/-- One regex match object: the named capture groups a compiled pattern
of the registry can bind (a `none` group is one the pattern does not
contain), together with `match.group(0)` and the match span.  Position
groups match `[1-9][0-9]*` and are therefore `Nat`s. -/
structure MatchGroups where
  pos : Option Nat := none
  fromPos : Option Nat := none
  toPos : Option Nat := none
  offset : Option Nat := none
  plusMinus : Option String := none
  origAaShort : Option String := none
  origAaLong : Option String := none
  mutAaShort : Option String := none
  mutAaLong : Option String := none
  origDna : Option String := none
  mutDna : Option String := none
  origAasShort : Option String := none
  origAasLong : Option String := none
  origDnas : Option String := none
  dnas : Option String := none
  mutAasShort : Option String := none
  mutAasLong : Option String := none
  rsId : Option String := none
  matched : String := ""
  mstart : Nat := 0
  mend : Nat := 0
deriving DecidableEq, Repr

/-- The shared signed-offset computation at the top of
`parseMatchSub`/`Del`/`Ins`/`Dup`: only for non-coding patterns, read
`plusMinus` and `offset`; `offset` missing while `plusMinus` is present
is a `KeyError`. -/
def parseOffset (g : MatchGroups) (isCoding : Bool) : Except Unit Int :=
  if isCoding then .ok 0
  else
    match g.plusMinus with
    | none => .ok 0
    | some pm =>
        if pm = "+" then do
          let o ← req g.offset
          .ok ((o : Int))
        else if pm = "-" then do
          let o ← req g.offset
          .ok (-(o : Int))
        else .ok 0

/-- The `origSeq` local of `parseMatchSub`: assigned from `origAaShort`,
then `origAaLong` (via the three-to-one table, raising on a failed
lookup), then overridden by `origDna`; never assigned is a `NameError`. -/
def subOrigSeq (g : MatchGroups) : Except Unit String :=
  (match g.origAaLong with
   | some s => req (threeToOneLower (asciiLower s)) >>= fun t => Except.ok (some t)
   | none => Except.ok g.origAaShort) >>= fun v1 =>
  req (match g.origDna with
       | some s => some s
       | none => v1)

/-- The `mutSeq` local of `parseMatchSub`: `mutAaShort`, then
`mutAaLong` (translated), then overridden by `mutDna`. -/
def subMutSeq (g : MatchGroups) : Except Unit String :=
  (match g.mutAaLong with
   | some s => req (threeToOneLower (asciiLower s)) >>= fun t => Except.ok (some t)
   | none => Except.ok g.mutAaShort) >>= fun v1 =>
  req (match g.mutDna with
       | some s => some s
       | none => v1)

/-- `parseMatchSub(match, patName, seqType, isCoding)`.  Returns
`.ok none` exactly when the blacklist discards the match (only possible
on the single-position branch). -/
def parseMatchSub (g : MatchGroups) (seqType : String) (isCoding : Bool) :
    Except Unit (Option VariantDescription) := do
  let offset ← parseOffset g isCoding
  let origSeq0 ← subOrigSeq g
  let mutSeq0 ← subMutSeq g
  let mutSeq := asciiUpper mutSeq0
  let origSeq := asciiUpper origSeq0
  match g.toPos with
  | some tp => do
      let fp ← req g.fromPos
      pure (some { mutType := "sub", seqType := seqType, seqId := none,
                   geneId := "", start := (fp : Int), endPos := (tp : Int),
                   origSeq := some origSeq, mutSeq := some mutSeq,
                   origStr := pyStrip g.matched, offset := offset })
  | none => do
      let p ← req g.pos
      if isBlacklisted origSeq p mutSeq then pure none
      else
        pure (some { mutType := "sub", seqType := seqType, seqId := none,
                     geneId := "", start := (p : Int), endPos := (p : Int) + 1,
                     origSeq := some origSeq, mutSeq := some mutSeq,
                     origStr := pyStrip g.matched, offset := offset })

/-- The `origSeq` local of `parseMatchDel`: `origAasShort`,
`origAasLong` (translated), `origDnas`, `origDna`, then the trailing
`if origAaShort / elif origAaLong` pair; never assigned is a
`NameError`. -/
def delOrigSeq (g : MatchGroups) : Except Unit String :=
  (match g.origAasLong with
   | some s => req (threeToOneLower (asciiLower s)) >>= fun t => Except.ok (some t)
   | none => Except.ok g.origAasShort) >>= fun v1 =>
  (match g.origAaShort with
   | some s => Except.ok (some s)
   | none =>
     match g.origAaLong with
     | some s => req (threeToOneLower (asciiLower s)) >>= fun t => Except.ok (some t)
     | none =>
       Except.ok (match g.origDna with
                  | some s => some s
                  | none =>
                    match g.origDnas with
                    | some s => some s
                    | none => v1)) >>= fun v4 =>
  req v4

/-- `parseMatchDel`: an explicit to-position is inclusive (`+1`); no
blacklist check; `mutSeq` is `None`. -/
def parseMatchDel (g : MatchGroups) (seqType : String) (isCoding : Bool) :
    Except Unit (Option VariantDescription) := do
  let offset ← parseOffset g isCoding
  let se ←
    match g.toPos with
    | some tp => do
        let fp ← req g.fromPos
        pure ((fp : Int), (tp : Int) + 1)
    | none => do
        let p ← req g.pos
        pure ((p : Int), (p : Int) + 1)
  let origSeq ← delOrigSeq g
  pure (some { mutType := "del", seqType := seqType, seqId := none,
               geneId := "", start := se.1, endPos := se.2,
               origSeq := some (asciiUpper origSeq), mutSeq := none,
               origStr := pyStrip g.matched, offset := offset })

/-- The `mutSeq` local of `parseMatchIns`: starts at `None`, then
`mutAasShort`, `mutAasLong` (translated), `dnas`. -/
def insMutSeq (g : MatchGroups) : Except Unit (Option String) :=
  (match g.mutAasLong with
   | some s => req (threeToOneLower (asciiLower s)) >>= fun t => Except.ok (some t)
   | none => Except.ok g.mutAasShort) >>= fun v1 =>
  Except.ok (match g.dnas with
             | some s => some s
             | none => v1)

/-- `parseMatchIns`: an explicit to-position is used as-is (half-open);
`origSeq` is `None`; `mutSeq` may be `None`. -/
def parseMatchIns (g : MatchGroups) (seqType : String) (isCoding : Bool) :
    Except Unit (Option VariantDescription) := do
  let offset ← parseOffset g isCoding
  let se ←
    match g.toPos with
    | some tp => do
        let fp ← req g.fromPos
        pure ((fp : Int), (tp : Int))
    | none => do
        let p ← req g.pos
        pure ((p : Int), (p : Int) + 1)
  let mutSeq0 ← insMutSeq g
  pure (some { mutType := "ins", seqType := seqType, seqId := none,
               geneId := "", start := se.1, endPos := se.2,
               origSeq := none, mutSeq := mutSeq0.map asciiUpper,
               origStr := pyStrip g.matched, offset := offset })

/-- The `origSeq` read of `parseMatchDup`: `origDna`, else `origDnas`,
else `assert False`. -/
def dupOrigSeq (g : MatchGroups) : Except Unit String :=
  match g.origDna with
  | some s => .ok s
  | none =>
      match g.origDnas with
      | some s => .ok s
      | none => .error ()

/-- The position pair of `parseMatchDup`: a single position, or a
from/to range auto-extended by one when it is one short of
`len(origSeq)`; no position groups at all is `assert False`. -/
def dupRange (g : MatchGroups) (origSeq : String) : Except Unit (Int × Int) :=
  match g.pos with
  | some p => .ok ((p : Int), (p : Int) + 1)
  | none =>
      match g.fromPos with
      | some fp =>
          req g.toPos >>= fun tp =>
            let s : Int := (fp : Int)
            let e : Int := (tp : Int)
            if e - s ≠ (origSeq.length : Int) ∧ e - s = (origSeq.length : Int) - 1 then
              .ok (s, e + 1)
            else .ok (s, e)
      | none => .error ()

/-- `parseMatchDup`: requires a DNA sequence group (else `assert False`);
an off-by-one inclusive from/to range (one short of `len(origSeq)`) is
auto-extended by one; `mutSeq` is the duplicated sequence. -/
def parseMatchDup (g : MatchGroups) (seqType : String) (isCoding : Bool) :
    Except Unit (Option VariantDescription) :=
  parseOffset g isCoding >>= fun offset =>
  dupOrigSeq g >>= fun origSeq =>
  dupRange g origSeq >>= fun se =>
  Except.ok (some { mutType := "dup", seqType := seqType, seqId := none,
                    geneId := "", start := se.1, endPos := se.2,
                    origSeq := some origSeq, mutSeq := some (origSeq ++ origSeq),
                    origStr := pyStrip g.matched, offset := offset })

/-- `parseMatchSplicing`: a single-nucleotide substitution at `pos`
carrying the signed intron offset. -/
def parseMatchSplicing (g : MatchGroups) (seqType : String) :
    Except Unit (Option VariantDescription) := do
  let p ← req g.pos
  let pm ← req g.plusMinus
  let off0 ← req g.offset
  let offset : Int ←
    if pm = "+" then pure ((off0 : Int))
    else if pm = "-" then pure (-(off0 : Int))
    else .error ()
  let origSeq ← req g.origDna
  let mutSeq ← req g.mutDna
  pure (some { mutType := "splicing", seqType := seqType, seqId := none,
               geneId := "", start := (p : Int), endPos := (p : Int) + 1,
               origSeq := some origSeq, mutSeq := some mutSeq,
               origStr := pyStrip g.matched, offset := offset })

/-- `parseMatchRsId`: resolve the rsID through the external dbSNP store
(`rsIdToGenome`, passed as `rsLookup`); an unresolved id yields no
variant.  The resulting variant stores the chromosome in `origSeq` and
the rs-string in `mutSeq`, and has no `seqId`. -/
def parseMatchRsId (rsLookup : String → Option (String × Int × Int))
    (g : MatchGroups) : Except Unit (Option VariantDescription) := do
  let rsId ← req g.rsId
  match rsLookup rsId with
  | none => pure none
  | some (chrom, s, e) =>
      pure (some { mutType := "dbSnp", seqType := "dbSnp", seqId := none,
                   geneId := "", start := s, endPos := e,
                   origSeq := some chrom, mutSeq := some ("rs" ++ rsId),
                   origStr := pyStrip g.matched, offset := 0 })

/-- `Mention = namedtuple("Mention", "patName,start,end")` (field `end`
spelled `endPos`). -/
structure Mention where
  patName : String
  start : Nat
  endPos : Nat
deriving DecidableEq, Repr

/-- `makeMention(match, patName)`. -/
def makeMention (g : MatchGroups) (patName : String) : Mention :=
  { patName := patName, start := g.mstart, endPos := g.mend }

/-- One entry of the compiled-regex list together with one match of its
pattern: `(seqType, mutType, isCoding, patName, match)`. -/
structure RawMatch where
  seqType : String
  mutType : String
  isCoding : Bool
  patName : String
  groups : MatchGroups
deriving DecidableEq, Repr

/-- `isOverlapping(match, exclPos)`: does the match span intersect the
excluded position set? -/
def isOverlapping (g : MatchGroups) (exclPos : List Nat) : Bool :=
  (List.range' g.mstart (g.mend - g.mstart)).any (fun i => exclPos.contains i)

/-- The `mutType` dispatch of the `findVariantDescriptions` main loop
(an unrecognised `mutType` is skipped; `splicing` is not dispatched by
the source loop). -/
def dispatchMatch (rsLookup : String → Option (String × Int × Int))
    (m : RawMatch) : Except Unit (Option VariantDescription) :=
  if m.mutType = "sub" then parseMatchSub m.groups m.seqType m.isCoding
  else if m.mutType = "dbSnp" then parseMatchRsId rsLookup m.groups
  else if m.mutType = "del" then parseMatchDel m.groups m.seqType m.isCoding
  else if m.mutType = "ins" then parseMatchIns m.groups m.seqType m.isCoding
  else if m.mutType = "dup" then parseMatchDup m.groups m.seqType m.isCoding
  else .ok none

/-- Insertion-ordered model of `dict[k] = v` (Python keeps the original
slot of an overwritten key). -/
def upsert : List (String × VariantDescription) → String → VariantDescription →
    List (String × VariantDescription)
  | [], k, v => [(k, v)]
  | (k2, v2) :: rest, k, v =>
      if k2 = k then (k, v) :: rest else (k2, v2) :: upsert rest k v

/-- Insertion-ordered model of `defaultdict(list)[k].append(m)`. -/
def appendAt : List (String × List Mention) → String → Mention →
    List (String × List Mention)
  | [], k, m => [(k, [m])]
  | (k2, ms) :: rest, k, m =>
      if k2 = k then (k2, ms ++ [m]) :: rest else (k2, ms) :: appendAt rest k m

/-- Association-list lookup (Python `dict` access / `defaultdict`
non-creating read). -/
def lookupA {α : Type} : List (String × α) → String → Option α
  | [], _ => none
  | (k2, v) :: rest, k => if k2 = k then some v else lookupA rest k

/-- The two dictionaries the main loop of `findVariantDescriptions`
builds: `varDescObj` (name → canonical variant, last write wins) and
`varMentions` (name → accumulated mentions). -/
structure VarAgg where
  varDescObj : List (String × VariantDescription)
  varMentions : List (String × List Mention)
deriving DecidableEq, Repr

/-- One iteration of the match loop: skip excluded-overlap matches,
dispatch, skip `None` variants, otherwise key both dicts by
`variant.getName()`. -/
def aggStep (rsLookup : String → Option (String × Int × Int))
    (exclPos : List Nat) (agg : VarAgg) (m : RawMatch) : Except Unit VarAgg := do
  if isOverlapping m.groups exclPos then pure agg
  else do
    let variant0 ← dispatchMatch rsLookup m
    match variant0 with
    | none => pure agg
    | some variant => do
        let mention := makeMention m.groups m.patName
        let name ← getName variant
        pure { varDescObj := upsert agg.varDescObj name variant,
               varMentions := appendAt agg.varMentions name mention }

/-- The whole match loop of `findVariantDescriptions` over a given list
of pattern matches (the regex engine itself is external; its matches,
in pattern-then-position order, are the input). -/
def buildAgg (rsLookup : String → Option (String × Int × Int)) :
    List RawMatch → List Nat → VarAgg → Except Unit VarAgg
  | [], _, agg => .ok agg
  | m :: rest, exclPos, agg =>
      aggStep rsLookup exclPos agg m >>= fun agg2 =>
        buildAgg rsLookup rest exclPos agg2

/-- The per-category output dictionary: `variants[variant.seqType].append`
raises `KeyError` for a category outside the four initialised keys. -/
def bucketAdd : List (String × List (VariantDescription × List Mention)) →
    String → (VariantDescription × List Mention) →
    Except Unit (List (String × List (VariantDescription × List Mention)))
  | [], _, _ => .error ()
  | (k2, vs) :: rest, k, v =>
      if k2 = k then .ok ((k2, vs ++ [v]) :: rest)
      else
        bucketAdd rest k v >>= fun rest2 => .ok ((k2, vs) :: rest2)

/-- The final regrouping loop of `findVariantDescriptions`: every
accumulated name is appended (with its canonical variant) to the bucket
of that variant's `seqType`. -/
def bucketizeGo (vdo : List (String × VariantDescription)) :
    List (String × List Mention) →
    List (String × List (VariantDescription × List Mention)) →
    Except Unit (List (String × List (VariantDescription × List Mention)))
  | [], d => .ok d
  | (name, mentions) :: rest, d => do
      let variant ← req (lookupA vdo name)
      let d2 ← bucketAdd d variant.seqType (variant, mentions)
      bucketizeGo vdo rest d2

/-- The four always-present output categories. -/
def emptyBuckets : List (String × List (VariantDescription × List Mention)) :=
  [("prot", []), ("dna", []), ("dbSnp", []), ("intron", [])]

/-- `findVariantDescriptions(text, exclPos)`, with the regex matches as
explicit input: dict of `prot`/`dna`/`dbSnp`/`intron` →
list of `(VariantDescription, [Mention])`. -/
def findVariantDescriptions (rsLookup : String → Option (String × Int × Int))
    (ms : List RawMatch) (exclPos : List Nat) :
    Except Unit (List (String × List (VariantDescription × List Mention))) := do
  let agg ← buildAgg rsLookup ms exclPos { varDescObj := [], varMentions := [] }
  bucketizeGo agg.varDescObj agg.varMentions emptyBuckets

/-- Specification-side flat view of the same loop: the surviving
`(variant, mention)` pairs in match order (no merging). -/
def survivingResults (rsLookup : String → Option (String × Int × Int)) :
    List RawMatch → List Nat → Except Unit (List (VariantDescription × Mention))
  | [], _ => .ok []
  | m :: rest, exclPos =>
      if isOverlapping m.groups exclPos then survivingResults rsLookup rest exclPos
      else
        dispatchMatch rsLookup m >>= fun v0 =>
        survivingResults rsLookup rest exclPos >>= fun rest2 =>
        match v0 with
        | none => .ok rest2
        | some v => .ok ((v, makeMention m.groups m.patName) :: rest2)

/-- The mentions a given canonical name collects, read off the flat
match list: the merge-by-name specification. -/
def mentionsForName (rs : List (VariantDescription × Mention)) (n : String) :
    List Mention :=
  rs.filterMap (fun p => if getName p.1 = .ok n then some p.2 else none)

/-- Append new mentions onto an optional existing mention list
(`none` = the name was never seen). -/
def optAppend (o : Option (List Mention)) (l : List Mention) :
    Option (List Mention) :=
  match o, l with
  | none, [] => none
  | none, l => some l
  | some ms, l => some (ms ++ l)

/-- A 12-field BED-style interval record as produced by
`PslMapBedMaker.getBed` (the alignment projector of module `pslMapBed`
is an external collaborator; its output record is modelled with numeric
start/end/thick fields). -/
structure BedRec where
  chrom : String
  chromStart : Int
  chromEnd : Int
  name : String
  score : String
  strand : String
  thickStart : Int
  thickEnd : Int
  itemRgb : String
  blockCount : String
  blockSizes : String
  blockStarts : String
deriving DecidableEq, Repr

/-- The external collaborators `groundVariant` and its helpers consult,
bundled: sequence store, CDS table, refprot→refseq map, gene table,
alignment store (`SeqData.getRefseqPsls`), alignment projector
(`PslMapBedMaker.mapQuery` + `getBed`), dbSNP locus lookup and the
snippet formatter (`pubAlg.getSnippet`).  `P` is the opaque type of a
parsed alignment. -/
structure GroundEnv (P : Type) where
  getSeq : String → Option String
  getCdsStart : String → Option Int
  getRefSeqId : String → Option String
  entrezToSym : Int → Option String
  entrezToProtIds : Int → List String
  entrezToCodingIds : Int → List String
  psls : String → List P
  mapQueryBed : P → Int → Int → Option BedRec
  lookupDbSnp : String → Int → Int → Option String
  snippet : String → Nat → Nat → String

/-- `isSeqCorrect(seqId, variant, insertion_rv)`: the wild-type
verification gate.  `NR_` accessions are rejected first; a no-wild-type
insertion returns the caller policy before any sequence access; a
missing or too-short sequence is rejected; otherwise the (cds-shifted,
upper-cased) slice is compared to `origSeq` (an absent `origSeq` at
that point is a Python `AttributeError`).  `doShuffle` is `False`. -/
def isSeqCorrect {P : Type} (env : GroundEnv P) (seqId : String)
    (v : VariantDescription) (insertion_rv : Bool) : Except Unit Bool := do
  if pyStartswith seqId "NR_" then pure false
  else if v.mutType = "ins" ∧ (v.origSeq = none ∨ v.origSeq = some "") then
    pure insertion_rv
  else
    let vStart := v.start - 1
    let vEnd := v.endPos - 1
    match env.getSeq seqId with
    | none => pure false
    | some seq =>
        if ¬ vEnd ≤ (seq.length : Int) then pure false
        else do
          let cdsStart ←
            if v.seqType = "dna" then req (env.getCdsStart seqId) else pure 0
          let genomeSeq := asciiUpper (pySlice seq (vStart + cdsStart) (vEnd + cdsStart))
          let o ← req v.origSeq
          pure (genomeSeq = asciiUpper o)

/-- `hasSeqAtPos(seqIds, variant, insertion_rv)`: the accessions that
pass `isSeqCorrect`, in order. -/
def hasSeqAtPos {P : Type} (env : GroundEnv P) :
    List String → VariantDescription → Bool → Except Unit (List String)
  | [], _, _ => .ok []
  | sid :: rest, v, insertion_rv =>
      isSeqCorrect env sid v insertion_rv >>= fun b =>
      hasSeqAtPos env rest v insertion_rv >>= fun rest2 =>
      .ok (if b then sid :: rest2 else rest2)

/-- `checkVariantAgainstSequence(variant, entrezGene, sym, insertion_rv)`
with the default `seqDbs=["refseq"]` and an integral gene id (the
source's `"/"`-compound string ids degenerate to a single id).  Protein
variants use protein accessions, dna/intron variants coding accessions,
anything else is skipped; the first database with a verified hit wins. -/
def checkVariantAgainstSequence {P : Type} (env : GroundEnv P)
    (v : VariantDescription) (g : Int) (insertion_rv : Bool) :
    Except Unit (Option String × List String) := do
  let seqIds0 : Option (List String) :=
    if v.seqType = "prot" then some (env.entrezToProtIds g)
    else if v.seqType = "dna" ∨ v.seqType = "intron" then
      some (env.entrezToCodingIds g)
    else none
  match seqIds0 with
  | none => pure (none, [])
  | some ids =>
      if ids = [] then pure (none, [])
      else do
        let found ← hasSeqAtPos env ids v insertion_rv
        if found ≠ [] then pure (some "refseq", found)
        else pure (none, [])

/-- `rewriteToRefProt(variant, protIds)`: one shallow copy of the
variant per verified accession, with `seqId` rewritten. -/
def rewriteToRefProt (v : VariantDescription) (protIds : List String) :
    List VariantDescription :=
  protIds.map (fun pid => { v with seqId := some pid })

/-- `dnaAtCodingPos(refseqId, start, end, expectAa)`: fetch the
nucleotide window `cdsStart + 3*start ..`, translate it and assert the
expected residues (`doShuffle` is `False`, so a mismatch is a failed
assertion, i.e. `.error`); a missing sequence is the `None, None, None`
result. -/
def dnaAtCodingPos {P : Type} (env : GroundEnv P) (refseqId : String)
    (start endP : Int) (expectAa : String) :
    Except Unit (Option (String × Int × Int)) := do
  let cdsStart ← req (env.getCdsStart refseqId)
  let nuclStart := cdsStart + 3 * start
  let nuclEnd := nuclStart + 3 * (endP - start)
  match env.getSeq refseqId with
  | none => pure none
  | some cdnaSeq => do
      let nuclSeq := pySlice cdnaSeq nuclStart nuclEnd
      let foundAa ← translate nuclSeq
      if foundAa = expectAa then pure (some (nuclSeq, nuclStart, nuclEnd))
      else .error ()

/-- Loop body of `mapToCodingAndRna`, accumulating `codVars`/`rnaVars`.
A protein id that does not resolve to a refseq id is skipped; a missing
reference sequence aborts the whole function with the `(None, None)`
result (modelled `.ok none`). -/
def mapToCodingAndRnaGo {P : Type} (env : GroundEnv P) :
    List VariantDescription → List VariantDescription →
    List VariantDescription →
    Except Unit (Option (List VariantDescription × List VariantDescription))
  | [], codVars, rnaVars => .ok (some (codVars, rnaVars))
  | pv :: rest, codVars, rnaVars => do
      match pv.seqId.bind env.getRefSeqId with
      | none => mapToCodingAndRnaGo env rest codVars rnaVars
      | some transId => do
          let origSeq ← req pv.origSeq
          let pos := pv.start - 1
          let r ← dnaAtCodingPos env transId pos (pos + (origSeq.length : Int)) origSeq
          match r with
          | none => .ok none
          | some rr =>
              let origDnaSeq := rr.1
              let cdnaStart := rr.2.1
              if pv.mutType = "del" ∧ pv.mutSeq = none then
                let cdStart := 3 * pv.start
                let cdEnd := cdStart + 3 * (origSeq.length : Int)
                let codVar : VariantDescription :=
                  { mutType := pv.mutType, seqType := "cds", seqId := some transId,
                    geneId := "", start := cdStart, endPos := cdEnd,
                    origSeq := some origDnaSeq, mutSeq := none,
                    origStr := pv.origStr, offset := 0 }
                let rnaVar : VariantDescription :=
                  { mutType := pv.mutType, seqType := "rna", seqId := some transId,
                    geneId := "", start := cdnaStart,
                    endPos := cdnaStart + 3 * (origSeq.length : Int),
                    origSeq := some origDnaSeq, mutSeq := none,
                    origStr := pv.origStr, offset := 0 }
                mapToCodingAndRnaGo env rest (codVars ++ [codVar]) (rnaVars ++ [rnaVar])
              else do
                let mutSeq ← req pv.mutSeq
                let possChanges := possibleDnaChanges origSeq mutSeq origDnaSeq
                let newCod := possChanges.map (fun t =>
                  let cdStart := 3 * (pv.start - 1) + (t.1 : Int) + 1
                  ({ mutType := pv.mutType, seqType := "cds", seqId := some transId,
                     geneId := "", start := cdStart,
                     endPos := cdStart + (t.2.1.length : Int),
                     origSeq := some t.2.1, mutSeq := some t.2.2,
                     origStr := pv.origStr, offset := 0 } : VariantDescription))
                let newRna := possChanges.map (fun t =>
                  let s := cdnaStart + (t.1 : Int)
                  ({ mutType := pv.mutType, seqType := "rna", seqId := some transId,
                     geneId := "", start := s,
                     endPos := s + (t.2.2.length : Int),
                     origSeq := some t.2.1, mutSeq := some t.2.2,
                     origStr := pv.origStr, offset := 0 } : VariantDescription))
                mapToCodingAndRnaGo env rest (codVars ++ newCod) (rnaVars ++ newRna)

/-- `mapToCodingAndRna(protVars)`. -/
def mapToCodingAndRna {P : Type} (env : GroundEnv P)
    (protVars : List VariantDescription) :
    Except Unit (Option (List VariantDescription × List VariantDescription)) :=
  mapToCodingAndRnaGo env protVars [] []

/-- `pslMapVariant(variant, psl)`: project the variant interval through
one alignment; on success a deep copy with only `seqId`/`start`/`end`
rewritten from the projected record. -/
def pslMapVariant {P : Type} (mapQueryBed : P → Int → Int → Option BedRec)
    (variant : VariantDescription) (psl : P) : Option VariantDescription :=
  match mapQueryBed psl variant.start variant.endPos with
  | none => none
  | some bed =>
      some { variant with
             seqId := some bed.chrom
             start := bed.chromStart
             endPos := bed.chromEnd }

/-- Per-variant body of `mapToGenome`: no alignment drops the variant,
several alignments use only the first, a successful projection gets the
caller's name, the variant's `origStr` appended, and its four interval
fields shifted by the variant's signed offset. -/
def mapToGenomeOne {P : Type} (psls : String → List P)
    (mapQueryBed : P → Int → Int → Option BedRec) (bedName : String)
    (rnaVar : VariantDescription) : Option (BedRec × String) :=
  match psls (fmtOpt rnaVar.seqId) with
  | [] => none
  | mapPsl :: _ =>
      match mapQueryBed mapPsl rnaVar.start rnaVar.endPos with
      | none => none
      | some bed0 =>
          let bed1 := { bed0 with name := bedName }
          some ({ bed1 with
                  chromStart := bed1.chromStart + rnaVar.offset
                  chromEnd := bed1.chromEnd + rnaVar.offset
                  thickStart := bed1.thickStart + rnaVar.offset
                  thickEnd := bed1.thickEnd + rnaVar.offset },
                rnaVar.origStr)

/-- `mapToGenome(rnaVars, bedName)`. -/
def mapToGenome {P : Type} (psls : String → List P)
    (mapQueryBed : P → Int → Int → Option BedRec)
    (rnaVars : List VariantDescription) (bedName : String) :
    List (BedRec × String) :=
  rnaVars.filterMap (mapToGenomeOne psls mapQueryBed bedName)

/-- `bedToRsIds(beds)`: the dbSNP id at each interval, `"na"` when the
locus is unknown. -/
def bedToRsIds (lookupDbSnp : String → Int → Int → Option String)
    (beds : List (BedRec × String)) : List String :=
  beds.map (fun b =>
    match lookupDbSnp b.1.chrom b.1.chromStart b.1.chromEnd with
    | none => "na"
    | some rs => rs)

/-- `defaultdict(list)[k].extend(ms)` for the rsId → mentions map. -/
def appendAllAt (l : List (String × List Mention)) (k : String)
    (ms : List Mention) : List (String × List Mention) :=
  match l with
  | [] => [(k, ms)]
  | (k2, ms2) :: rest =>
      if k2 = k then (k2, ms2 ++ ms) :: rest
      else (k2, ms2) :: appendAllAt rest k ms

/-- Accumulation loop of `getSnpMentions`. -/
def getSnpMentionsGo (mapped : List String) :
    List (VariantDescription × List Mention) → List (String × List Mention) →
    List (String × List Mention)
  | [], acc => acc
  | (v, mentions) :: rest, acc =>
      match v.origSeq with
      | some rsId =>
          if mapped.contains rsId then
            getSnpMentionsGo mapped rest (appendAllAt acc rsId mentions)
          else getSnpMentionsGo mapped rest acc
      | none => getSnpMentionsGo mapped rest acc

/-- `getSnpMentions(mappedRsIds, varList)`: mentions of document dbSNP
variants whose stored id is among the mapped ids (`"na"` removed). -/
def getSnpMentions (mappedRsIds : List String)
    (varList : List (VariantDescription × List Mention)) :
    List (String × List Mention) :=
  if varList = [] then []
  else
    let mapped := (mappedRsIds.eraseDups).filter (fun s => s ≠ "na")
    if mapped = [] then []
    else getSnpMentionsGo mapped varList []

/-- `mentionsFields(mentions, text)`: per-mention start/end strings,
pattern names, pipe-sanitised snippets, and punctuation-stripped matched
texts. -/
def mentionsFields (snippet : String → Nat → Nat → String)
    (mentions : List Mention) (text : String) :
    List String × List String × List String × List String × List String :=
  (mentions.map (fun m => toString m.start),
   mentions.map (fun m => toString m.endPos),
   mentions.map (fun m => m.patName),
   mentions.map (fun m => (snippet text m.start m.endPos).replace "|" " "),
   mentions.map (fun m => pyStripSet "() -;,." (pySlice text (m.start : Int) (m.endPos : Int))))

/-- The terminal output record (`class SeqVariantData`, `__slots__ =
mutFields`); every field is the string Python stores. -/
structure SeqVariantData where
  chrom : String
  start : String
  endPos : String
  offset : String
  varId : String
  inDb : String
  patType : String
  hgvsProt : String
  hgvsCoding : String
  hgvsRna : String
  comment : String
  rsIds : String
  protId : String
  texts : String
  rsIdsMentioned : String
  dbSnpStarts : String
  dbSnpEnds : String
  geneSymbol : String
  geneType : String
  entrezId : String
  geneStarts : String
  geneEnds : String
  seqType : String
  mutPatNames : String
  mutStarts : String
  mutEnds : String
  mutSnippets : String
  geneSnippets : String
  dbSnpSnippets : String
deriving DecidableEq, Repr

/-- `"|".join(v.getName() for v in vars)` (a name failure propagates). -/
def joinNames (vars : List VariantDescription) : Except Unit String := do
  let names ← vars.mapM getName
  pure (String.intercalate "|" names)

/-- `SeqVariantData.__init__`.  Note the faithful quirk: the ctor's
`for rsId, mentions in dbSnpMentionsByRsId` loop shadows the `mentions`
parameter, so with a non-empty dbSNP map the `mut*` fields are computed
from the last dbSNP mention list; `texts` joins a Python set, modelled
as an order-preserving dedup.  The `beds` parameter is unused by the
source constructor and omitted here. -/
def mkSeqVariantData (snippet : String → Nat → Nat → String) (varId : String)
    (protVars codVars rnaVars : List VariantDescription) (comment : String)
    (entrezGene geneSym : String) (rsIds : List String)
    (dbSnpMentionsByRsId : List (String × List Mention))
    (mentions : List Mention) (text : String) (seqType patType : String) :
    Except Unit SeqVariantData := do
  let hgvsProt ← joinNames protVars
  let hgvsCoding ← joinNames codVars
  let hgvsRna ← joinNames rnaVars
  let dbParts := dbSnpMentionsByRsId.map (fun p =>
    let f := mentionsFields snippet p.2 text
    (f.1, f.2.1, f.2.2.2.1, p.2.map (fun _ => p.1)))
  let dbStarts := (dbParts.map (fun q => q.1)).flatten
  let dbEnds := (dbParts.map (fun q => q.2.1)).flatten
  let dbSnips := (dbParts.map (fun q => q.2.2.1)).flatten
  let mentionedRsIds := (dbParts.map (fun q => q.2.2.2)).flatten
  let mentionsEff :=
    match dbSnpMentionsByRsId.getLast? with
    | some p => p.2
    | none => mentions
  let mf := mentionsFields snippet mentionsEff text
  pure { chrom := "", start := "", endPos := "", offset := "", varId := varId,
         inDb := "", patType := patType, seqType := seqType,
         hgvsProt := hgvsProt, hgvsCoding := hgvsCoding, hgvsRna := hgvsRna,
         comment := comment, rsIds := String.intercalate "|" rsIds,
         protId := "", geneType := "entrez", geneStarts := "", geneEnds := "",
         geneSnippets := "",
         dbSnpStarts := String.intercalate "," dbStarts,
         dbSnpEnds := String.intercalate "," dbEnds,
         dbSnpSnippets := String.intercalate "|" dbSnips,
         rsIdsMentioned := String.intercalate "|" mentionedRsIds,
         geneSymbol := geneSym, entrezId := entrezGene,
         mutStarts := String.intercalate "," mf.1,
         mutEnds := String.intercalate "," mf.2.1,
         mutPatNames := String.intercalate "|" mf.2.2.1,
         mutSnippets := String.intercalate "|" mf.2.2.2.1,
         texts := String.intercalate "|" (mf.2.2.2.2.eraseDups) }

/-- Mutable loop state of `groundVariant`. -/
structure GroundState where
  grounded : List SeqVariantData
  mappedRsIds : List String
  allBeds : List (BedRec × String)
  groundSuccess : Bool
deriving DecidableEq, Repr

/-- One iteration of the per-gene loop of `groundVariant`; the returned
flag is the `break` of the intron branch (which also resets
`groundSuccess`).  The dead `assert False` arm for other sequence types
is unreachable because `checkVariantAgainstSequence` only returns hits
for prot/dna/intron. -/
def groundGeneStep {P : Type} (env : GroundEnv P) (docId text : String)
    (v : VariantDescription) (mentions : List Mention)
    (snpMentions : List (VariantDescription × List Mention))
    (insertion_rv : Bool) (st : GroundState) (g : Int) :
    Except Unit (GroundState × Bool) := do
  match env.entrezToSym g with
  | none => pure (st, false)
  | some geneSym => do
      let dbIds ← checkVariantAgainstSequence env v g insertion_rv
      let seqIds := dbIds.2
      if seqIds = [] then pure (st, false)
      else if v.seqType = "intron" then
        pure ({ st with groundSuccess := false }, true)
      else do
        let varId := docId
        let pcr ←
          if v.seqType = "prot" then do
            if dbIds.1 ≠ some "refseq" then .error ()
            else do
              let protVars := rewriteToRefProt v seqIds
              let r ← mapToCodingAndRna env protVars
              match r with
              | none => pure none
              | some cr => pure (some (protVars, cr.1, cr.2))
          else if v.seqType = "dna" then do
            let cvs ← seqIds.mapM (fun sid => do
              let cVariant := { v with seqId := some sid }
              let cdsStart ← req (env.getCdsStart sid)
              let rVariant :=
                { v with
                  seqId := some sid
                  start := v.start + cdsStart - 1
                  endPos := v.endPos + cdsStart - 1 }
              pure (cVariant, rVariant))
            pure (some (([] : List VariantDescription),
              cvs.map Prod.fst, cvs.map Prod.snd))
          else .error ()
        match pcr with
        | none => pure (st, false)
        | some pcr2 => do
            let beds := mapToGenome env.psls env.mapQueryBed pcr2.2.2 varId
            let varRsIds := bedToRsIds env.lookupDbSnp beds
            let mentionedDbSnpVars := getSnpMentions varRsIds snpMentions
            let groundedVar ← mkSeqVariantData env.snippet varId pcr2.1 pcr2.2.1
              pcr2.2.2 "" (toString g) geneSym varRsIds mentionedDbSnpVars
              mentions text v.seqType "sub"
            pure ({ grounded := st.grounded ++ [groundedVar],
                    mappedRsIds := st.mappedRsIds ++ mentionedDbSnpVars.map Prod.fst,
                    allBeds := st.allBeds ++ beds,
                    groundSuccess := true }, false)

/-- The per-gene loop of `groundVariant` (the intron `break` stops it). -/
def groundLoop {P : Type} (env : GroundEnv P) (docId text : String)
    (v : VariantDescription) (mentions : List Mention)
    (snpMentions : List (VariantDescription × List Mention))
    (insertion_rv : Bool) : List Int → GroundState → Except Unit GroundState
  | [], st => .ok st
  | g :: rest, st => do
      let sb ← groundGeneStep env docId text v mentions snpMentions insertion_rv st g
      if sb.2 then .ok sb.1
      else groundLoop env docId text v mentions snpMentions insertion_rv rest sb.1

/-- `groundVariant(docId, text, variant, mentions, snpMentions,
entrezGenes, insertion_rv)` → `(groundedMuts, ungroundVar, allBeds)`.
The unused `unmappedRsVarsToFakeVariants` result of the source is not
modelled (it is computed and discarded). -/
def groundVariant {P : Type} (env : GroundEnv P) (docId text : String)
    (v : VariantDescription) (mentions : List Mention)
    (snpMentions : List (VariantDescription × List Mention))
    (entrezGenes : List Int) (insertion_rv : Bool) :
    Except Unit (List SeqVariantData × Option SeqVariantData × List (BedRec × String)) := do
  let st ← groundLoop env docId text v mentions snpMentions insertion_rv entrezGenes
    { grounded := [], mappedRsIds := [], allBeds := [], groundSuccess := false }
  let ungroundVar ←
    if st.groundSuccess then pure (none : Option SeqVariantData)
    else do
      let u ← mkSeqVariantData env.snippet "" [] [] [] "" "" "" [] [] mentions
        text v.seqType "sub"
      pure (some u)
  pure (st.grounded, ungroundVar, st.allBeds)

/-- Specification-side predicate: gene `g` yields a verified projection
for the variant (resolvable symbol, a non-empty verified accession list,
and — for protein variants — a successful coding/rna mapping; intron
variants never project). -/
def geneYieldsProjection {P : Type} (env : GroundEnv P)
    (v : VariantDescription) (g : Int) (insertion_rv : Bool) : Bool :=
  if v.seqType = "intron" then false
  else
    match env.entrezToSym g with
    | none => false
    | some _ =>
        match checkVariantAgainstSequence env v g insertion_rv with
        | .error _ => false
        | .ok dbIds =>
            if dbIds.2 = [] then false
            else if v.seqType = "prot" then
              match mapToCodingAndRna env (rewriteToRefProt v dbIds.2) with
              | .ok (some _) => true
              | _ => false
            else true

/-! ### Concrete instances used by counterexamples and witnesses -/

/-- A dbSNP store with no entries. -/
def rsLookup0 : String → Option (String × Int × Int) := fun _ => none

/-- A match of a del pattern with an ill-ordered explicit range
(`fromPos = 5`, `toPos = 3`), as matched from text like `5_3delA`. -/
def delCexGroups : MatchGroups :=
  { fromPos := some 5, toPos := some 3, origAasShort := some "A",
    matched := "5_3delA", mstart := 0, mend := 7 }

/-- The variant `parseMatchDel` builds from `delCexGroups`. -/
def delCexVar : VariantDescription :=
  { mutType := "del", seqType := "dna", seqId := none, geneId := "",
    start := 5, endPos := 4, origSeq := some "A", mutSeq := none,
    origStr := "5_3delA", offset := 0 }

/-- A protein-substitution match of `A123T`. -/
def protSubGroups : MatchGroups :=
  { pos := some 123, origAaShort := some "A", mutAaShort := some "T",
    matched := "A123T", mstart := 0, mend := 5 }

/-- A DNA-substitution match of `c.123A>T`. -/
def dnaSubGroups : MatchGroups :=
  { pos := some 123, origDna := some "A", mutDna := some "T",
    matched := "c.123A>T", mstart := 10, mend := 18 }

/-- The variant built from `protSubGroups` (category `prot`). -/
def protSubVar : VariantDescription :=
  { mutType := "sub", seqType := "prot", seqId := none, geneId := "",
    start := 123, endPos := 124, origSeq := some "A", mutSeq := some "T",
    origStr := "A123T", offset := 0 }

/-- The variant built from `dnaSubGroups` (category `dna`). -/
def dnaSubVar : VariantDescription :=
  { mutType := "sub", seqType := "dna", seqId := none, geneId := "",
    start := 123, endPos := 124, origSeq := some "A", mutSeq := some "T",
    origStr := "c.123A>T", offset := 0 }

/-- The `A123T` match as a row of the compiled-pattern loop. -/
def protSubMatch : RawMatch :=
  { seqType := "prot", mutType := "sub", isCoding := true,
    patName := "patProtSub", groups := protSubGroups }

/-- The `c.123A>T` match as a row of the compiled-pattern loop. -/
def dnaSubMatch : RawMatch :=
  { seqType := "dna", mutType := "sub", isCoding := true,
    patName := "patDnaSub", groups := dnaSubGroups }

/-- The mention recorded for `protSubMatch`. -/
def protSubMention : Mention := { patName := "patProtSub", start := 0, endPos := 5 }

/-- The mention recorded for `dnaSubMatch`. -/
def dnaSubMention : Mention := { patName := "patDnaSub", start := 10, endPos := 18 }

/-- The aggregation state after processing `protSubMatch` then
`dnaSubMatch`: both merged under the canonical name `p.A123T`, the
canonical variant being the later (dna) one. -/
def mergeAgg : VarAgg :=
  { varDescObj := [("p.A123T", dnaSubVar)],
    varMentions := [("p.A123T", [protSubMention, dnaSubMention])] }

/-- The flat surviving-match list for `[protSubMatch, dnaSubMatch]`. -/
def mergeRs : List (VariantDescription × Mention) :=
  [(protSubVar, protSubMention), (dnaSubVar, dnaSubMention)]

/-- A match of the blacklisted cell-line name `T47D`. -/
def t47dGroups : MatchGroups :=
  { pos := some 47, origAaShort := some "T", mutAaShort := some "D",
    matched := "T47D", mstart := 0, mend := 4 }

/-- The `T47D` match as a row of the compiled-pattern loop. -/
def t47dMatch : RawMatch :=
  { seqType := "prot", mutType := "sub", isCoding := true,
    patName := "patProtSub", groups := t47dGroups }

/-- An environment in which nothing resolves: no sequences, no
alignments, only entrez gene 672 has a symbol. -/
def envNone : GroundEnv Unit :=
  { getSeq := fun _ => none
    getCdsStart := fun _ => none
    getRefSeqId := fun _ => none
    entrezToSym := fun g => if g = 672 then some "BRCA1" else none
    entrezToProtIds := fun _ => ["NP_1"]
    entrezToCodingIds := fun _ => []
    psls := fun _ => []
    mapQueryBed := fun _ _ _ => none
    lookupDbSnp := fun _ _ _ => none
    snippet := fun _ _ _ => "" }

/-- The protein variant `R71G` of the module doctests. -/
def vR71G : VariantDescription :=
  { mutType := "sub", seqType := "prot", seqId := none, geneId := "",
    start := 71, endPos := 72, origSeq := some "R", mutSeq := some "G",
    origStr := "R71G", offset := 0 }

/-- An intron variant (`c.1184-3A>T` style). -/
def vIntron : VariantDescription :=
  { mutType := "sub", seqType := "intron", seqId := none, geneId := "",
    start := 1184, endPos := 1185, origSeq := some "A", mutSeq := some "T",
    origStr := "c.1184-3A>T", offset := -3 }

/-- An insertion variant with no wild-type sequence. -/
def vIns : VariantDescription :=
  { mutType := "ins", seqType := "prot", seqId := none, geneId := "",
    start := 5, endPos := 6, origSeq := none, mutSeq := some "AG",
    origStr := "5_6insAG", offset := 0 }

/-- The ungrounded record `groundVariant` emits for a `prot` variant
with no mentions in text `"t"`. -/
def ungroundedProtRec : SeqVariantData :=
  { chrom := "", start := "", endPos := "", offset := "", varId := "",
    inDb := "", patType := "sub", hgvsProt := "", hgvsCoding := "",
    hgvsRna := "", comment := "", rsIds := "", protId := "", texts := "",
    rsIdsMentioned := "", dbSnpStarts := "", dbSnpEnds := "",
    geneSymbol := "", geneType := "entrez", entrezId := "",
    geneStarts := "", geneEnds := "", seqType := "prot",
    mutPatNames := "", mutStarts := "", mutEnds := "", mutSnippets := "",
    geneSnippets := "", dbSnpSnippets := "" }

/-- The ungrounded record `groundVariant` emits for an `intron` variant
with no mentions: identical to the prot one except for `seqType`. -/
def ungroundedIntronRec : SeqVariantData :=
  { ungroundedProtRec with seqType := "intron" }

/-- An environment whose sequence store has the short sequence `MAB`
for `NP_1`. -/
def envSeq : GroundEnv Unit :=
  { getSeq := fun s => if s = "NP_1" then some "MAB" else none
    getCdsStart := fun _ => some 0
    getRefSeqId := fun _ => none
    entrezToSym := fun g => if g = 672 then some "BRCA1" else none
    entrezToProtIds := fun _ => ["NP_1"]
    entrezToCodingIds := fun _ => []
    psls := fun _ => []
    mapQueryBed := fun _ _ _ => none
    lookupDbSnp := fun _ _ _ => none
    snippet := fun _ _ _ => "" }

/-- An alignment store with a single alignment for `NM_1`. -/
def pslsW : String → List Unit := fun k => if k = "NM_1" then [()] else []

/-- A projector that shifts an interval by 100 onto `chr1`. -/
def makerW : Unit → Int → Int → Option BedRec :=
  fun _ s e =>
    some { chrom := "chr1", chromStart := s + 100, chromEnd := e + 100,
           name := "n", score := "0", strand := "+", thickStart := s + 100,
           thickEnd := e + 100, itemRgb := "0", blockCount := "1",
           blockSizes := "1", blockStarts := "0" }

/-- An RNA variant on `NM_1` carrying intron offset `-3`. -/
def rnaW : VariantDescription :=
  { mutType := "sub", seqType := "rna", seqId := some "NM_1", geneId := "",
    start := 10, endPos := 11, origSeq := some "A", mutSeq := some "G",
    origStr := "c.10A>G", offset := -3 }

/-- An insertion match `5insAG`. -/
def insWitGroups : MatchGroups :=
  { pos := some 5, mutAasShort := some "AG", matched := "5insAG",
    mstart := 0, mend := 6 }

/-- The variant built from `insWitGroups`. -/
def insWitVar : VariantDescription :=
  { mutType := "ins", seqType := "prot", seqId := none, geneId := "",
    start := 5, endPos := 6, origSeq := none, mutSeq := some "AG",
    origStr := "5insAG", offset := 0 }

/-- A duplication match `c.4dupA`. -/
def dupWitGroups : MatchGroups :=
  { pos := some 4, origDna := some "A", matched := "c.4dupA",
    mstart := 0, mend := 7 }

/-- The variant built from `dupWitGroups`. -/
def dupWitVar : VariantDescription :=
  { mutType := "dup", seqType := "dna", seqId := none, geneId := "",
    start := 4, endPos := 5, origSeq := some "A", mutSeq := some "AA",
    origStr := "c.4dupA", offset := 0 }

/-- A splicing match `c.1184-3A>T`. -/
def splWitGroups : MatchGroups :=
  { pos := some 1184, plusMinus := some "-", offset := some 3,
    origDna := some "A", mutDna := some "T", matched := "c.1184-3A>T",
    mstart := 0, mend := 11 }

/-- The variant built from `splWitGroups`. -/
def splWitVar : VariantDescription :=
  { mutType := "splicing", seqType := "intron", seqId := none, geneId := "",
    start := 1184, endPos := 1185, origSeq := some "A", mutSeq := some "T",
    origStr := "c.1184-3A>T", offset := -3 }

/-- A dbSNP store resolving every rsID to `chr1:10-11`. -/
def rsWitLookup : String → Option (String × Int × Int) :=
  fun _ => some ("chr1", 10, 11)

/-- A dbSNP-reference match `rs123`. -/
def rsWitGroups : MatchGroups :=
  { rsId := some "123", matched := "rs123", mstart := 0, mend := 5 }

/-- The variant built from `rsWitGroups` under `rsWitLookup`. -/
def rsWitVar : VariantDescription :=
  { mutType := "dbSnp", seqType := "dbSnp", seqId := none, geneId := "",
    start := 10, endPos := 11, origSeq := some "chr1", mutSeq := some "rs123",
    origStr := "rs123", offset := 0 }

/-- The raw projection `makerW` produces for the interval `10-11`. -/
def c7bedRaw : BedRec :=
  { chrom := "chr1", chromStart := 110, chromEnd := 111, name := "n",
    score := "0", strand := "+", thickStart := 110, thickEnd := 111,
    itemRgb := "0", blockCount := "1", blockSizes := "1", blockStarts := "0" }

/-- The projected record for `rnaW` after the offset shift by `-3` and
renaming to `vid`. -/
def c7bedShifted : BedRec :=
  { chrom := "chr1", chromStart := 107, chromEnd := 108, name := "vid",
    score := "0", strand := "+", thickStart := 107, thickEnd := 108,
    itemRgb := "0", blockCount := "1", blockSizes := "1", blockStarts := "0" }

/-- The variant `pslMapVariant makerW rnaW ()` produces. -/
def pslWitVar : VariantDescription :=
  { mutType := "sub", seqType := "rna", seqId := some "chr1", geneId := "",
    start := 110, endPos := 111, origSeq := some "A", mutSeq := some "G",
    origStr := "c.10A>G", offset := -3 }

/-! ### Generic helper lemmas -/

@[simp] theorem exc_bind_ok {α β : Type} (a : α) (f : α → Except Unit β) :
    (Except.ok a >>= f) = f a := rfl

@[simp] theorem exc_bind_error {α β : Type} (e : Unit) (f : α → Except Unit β) :
    ((Except.error e : Except Unit α) >>= f) = Except.error e := rfl

@[simp] theorem exc_pure_eq {α : Type} (a : α) :
    (pure a : Except Unit α) = Except.ok a := rfl

@[simp] theorem req_some {α : Type} (a : α) : req (some a) = .ok a := rfl

@[simp] theorem req_none {α : Type} : (req (none : Option α)) = .error () := rfl

@[simp] theorem exc_map_ok {α β : Type} (f : α → β) (a : α) :
    (Except.ok a : Except Unit α).map f = .ok (f a) := rfl

@[simp] theorem exc_map_error {α β : Type} (e : Unit) (f : α → β) :
    (Except.error e : Except Unit α).map f = .error e := rfl

theorem stringMk_data (s : String) : String.mk s.data = s := rfl

theorem string_data_nil (s : String) (h : s.data = []) : s = "" := by
  rw [← stringMk_data s, h]

@[simp] theorem asciiUpper_length (s : String) :
    (asciiUpper s).length = s.length := by
  have h1 : (asciiUpper s).length = (s.data.map Char.toUpper).length := rfl
  rw [h1, List.length_map]
  rfl

theorem sum_map_const {α : Type} (l : List α) (k : Nat) :
    (l.map (fun _ => k)).sum = l.length * k := by
  induction l with
  | nil => simp
  | cons a t ih => simp [ih, Nat.succ_mul, Nat.add_comm]

/-! ### Back-translation lemmas (C5) -/

theorem aaTable_ok :
    ∀ a ∈ aaKeys, ∀ codon ∈ aaToDna a,
      codon.length = 3 ∧ dnaToAa (asciiUpper codon) = some a := by
  decide

theorem translateGo_nil : translateGo [] = .ok [] := rfl

theorem translateGo_one (c1 : Char) : translateGo [c1] = .error () := rfl

theorem translateGo_two (c1 c2 : Char) : translateGo [c1, c2] = .error () := rfl

theorem translateGo_triple (c1 c2 c3 : Char) (rest : List Char) :
    translateGo (c1 :: c2 :: c3 :: rest) =
      (req (dnaToAa (asciiUpper (String.mk [c1, c2, c3]))) >>= fun aa =>
        translateGo rest >>= fun restAa => Except.ok (aa :: restAa)) := rfl

theorem translateGo_append (codon : List Char) (a : Char)
    (hc : dnaToAa (asciiUpper (String.mk codon)) = some a)
    (h3 : codon.length = 3) :
    ∀ (n : Nat) (u : List Char), u.length ≤ n → ∀ base,
      translateGo u = .ok base → translateGo (u ++ codon) = .ok (base ++ [a]) := by
  have tcodon : translateGo codon = .ok [a] := by
    obtain ⟨c1, c2, c3, hcod⟩ := List.length_eq_three.mp h3
    subst hcod
    rw [translateGo_triple, hc, req_some, exc_bind_ok, translateGo_nil, exc_bind_ok]
  intro n
  induction n with
  | zero =>
      intro u hu base h
      have hnil : u = [] := List.length_eq_zero.mp (Nat.le_zero.mp hu)
      subst hnil
      rw [translateGo_nil] at h
      injection h with h2
      subst h2
      simpa using tcodon
  | succ n ih =>
      intro u hu base h
      match u with
      | [] =>
          rw [translateGo_nil] at h
          injection h with h2
          subst h2
          simpa using tcodon
      | [c1] => rw [translateGo_one] at h; exact absurd h (by simp)
      | [c1, c2] => rw [translateGo_two] at h; exact absurd h (by simp)
      | c1 :: c2 :: c3 :: rest =>
          rw [translateGo_triple] at h
          cases hd : dnaToAa (asciiUpper (String.mk [c1, c2, c3])) with
          | none => rw [hd] at h; simp at h
          | some aa1 =>
              rw [hd, req_some, exc_bind_ok] at h
              cases hr : translateGo rest with
              | error e => rw [hr] at h; simp at h
              | ok base2 =>
                  rw [hr, exc_bind_ok] at h
                  injection h with h2
                  subst h2
                  have hlen : rest.length ≤ n := by
                    simp only [List.length_cons] at hu; omega
                  have hihres := ih rest hlen base2 hr
                  show translateGo (c1 :: c2 :: c3 :: (rest ++ codon)) = _
                  rw [translateGo_triple, hd, req_some, exc_bind_ok, hihres,
                    exc_bind_ok]
                  simp

theorem backTransGo_length :
    ∀ (rest : List Char) (seqs : List String),
      (backTransGo rest seqs).length =
        seqs.length * (rest.map (fun a => (aaToDna a).length)).prod := by
  intro rest
  induction rest with
  | nil => intro seqs; simp [backTransGo]
  | cons a tail ih =>
      intro seqs
      rw [backTransGo, ih]
      rw [List.length_flatten, List.map_map]
      have hmc : ((aaToDna a).map (List.length ∘ fun codon => seqs.map (fun s => s ++ codon)))
          = (aaToDna a).map (fun _ => seqs.length) := by
        apply List.map_congr_left
        intro codon _
        simp [Function.comp]
      rw [hmc, sum_map_const, List.map_cons, List.prod_cons]
      ring

theorem backTransGo_translate :
    ∀ (rest : List Char), (∀ x ∈ rest, x ∈ aaKeys) →
      ∀ (seqs : List String) (pre : List Char),
        (∀ t ∈ seqs, translateGo t.data = .ok pre) →
        ∀ t ∈ backTransGo rest seqs, translateGo t.data = .ok (pre ++ rest) := by
  intro rest
  induction rest with
  | nil =>
      intro _ seqs pre hseqs t ht
      rw [backTransGo] at ht
      simpa using hseqs t ht
  | cons a tail ih =>
      intro hmem seqs pre hseqs t ht
      rw [backTransGo] at ht
      have ha : a ∈ aaKeys := hmem a (by simp)
      have step : ∀ u ∈ (((aaToDna a).map
          (fun codon => seqs.map (fun s => s ++ codon))).flatten),
          translateGo u.data = .ok (pre ++ [a]) := by
        intro u hu
        rw [List.mem_flatten] at hu
        obtain ⟨l, hl, hul⟩ := hu
        rw [List.mem_map] at hl
        obtain ⟨codon, hcodon, rfl⟩ := hl
        rw [List.mem_map] at hul
        obtain ⟨s, hs, rfl⟩ := hul
        obtain ⟨hlen3, htab⟩ := aaTable_ok a ha codon hcodon
        rw [String.data_append]
        exact translateGo_append codon.data a (by rw [stringMk_data]; exact htab)
          hlen3 s.data.length s.data le_rfl pre (hseqs s hs)
      have := ih (fun x hx => hmem x (by simp [hx])) _ (pre ++ [a]) step t ht
      simpa using this

/-- C5: for every non-empty residue string over the amino-acid alphabet,
`backTrans` returns a list whose length is the product of the residues'
synonymous-codon-set sizes, every element of which translates back to
the input under the standard genetic code; in particular
`len(backTrans("FVC")) == 16`. -/
theorem backTrans_spec (s : String) (h1 : s ≠ "")
    (h2 : ∀ c ∈ s.data, c ∈ aaKeys) :
    (backTrans s).length = (s.data.map (fun c => (aaToDna c).length)).prod ∧
    (∀ t ∈ backTrans s, translate t = .ok s) ∧
    (backTrans "FVC").length = 16 := by
  cases hs : s.data with
  | nil => exact absurd (string_data_nil s hs) h1
  | cons c rest =>
      refine ⟨?_, ?_, by decide⟩
      · have hb : backTrans s = backTransGo rest (aaToDna c) := by
          rw [backTrans, hs]
        rw [hb, backTransGo_length, List.map_cons, List.prod_cons]
      · intro t ht
        rw [backTrans, hs] at ht
        have hc : c ∈ aaKeys := h2 c (by simp [hs])
        have hbase : ∀ u ∈ aaToDna c, translateGo u.data = .ok [c] := by
          intro u hu
          obtain ⟨hlen3, htab⟩ := aaTable_ok c hc u hu
          have := translateGo_append u.data c
            (by rw [stringMk_data]; exact htab)
            hlen3 0 [] (by simp) [] translateGo_nil
          simpa using this
        have hrest : ∀ x ∈ rest, x ∈ aaKeys := by
          intro x hx; exact h2 x (by simp [hs, hx])
        have htr := backTransGo_translate rest hrest (aaToDna c) [c] hbase t ht
        rw [translate, htr]
        rw [exc_map_ok]
        have hd2 : ([c] ++ rest : List Char) = s.data := by
          rw [hs]; rfl
        rw [hd2, stringMk_data]

/-- C5 witness: the theorem applied to the concrete residue string
`"FVC"`. -/
theorem backTrans_spec_witness :
    (backTrans "FVC").length = 16 ∧ translate "TTTGTTTGT" = .ok "FVC" :=
  ⟨(backTrans_spec "FVC" (by decide) (by decide)).2.2,
   (backTrans_spec "FVC" (by decide) (by decide)).2.1 "TTTGTTTGT" (by decide)⟩

/-! ### possibleDnaChanges lemmas (C4) -/

theorem diffsFrom_self : ∀ (i : Nat) (s : List Char), diffsFrom i s s = [] := by
  intro i s
  induction s generalizing i with
  | nil => rfl
  | cons c t ih => simp [diffsFrom, ih]

theorem diffs_ne_of_singleton {s1 s2 : List Char} {d : Nat × Char × Char}
    (h : diffs s1 s2 = [d]) : s1 ≠ s2 := by
  intro he
  subst he
  rw [diffs, diffsFrom_self] at h
  exact absurd h (by simp)

theorem firstDiffNucl_one {s1 s2 : List Char} {t : Nat × String × String} :
    firstDiffNucl s1 s2 1 = some t ↔
      ∃ p a b, diffs s1 s2 = [(p, a, b)] ∧ t = (p, String.mk [a], String.mk [b]) := by
  constructor
  · intro h
    rw [firstDiffNucl] at h
    by_cases heq : s1 = s2
    · simp [heq] at h
    · simp only [if_neg heq] at h
      by_cases hlen : 1 < (diffs s1 s2).length
      · simp [hlen] at h
      · simp only [if_neg hlen] at h
        match hds : diffs s1 s2 with
        | [] => rw [hds] at h; simp at h
        | [(p, a, b)] =>
            rw [hds] at h
            simp at h
            exact ⟨p, a, b, rfl, h.symm⟩
        | (d1 :: d2 :: rest) =>
            rw [hds] at h
            rw [hds] at hlen
            simp at hlen
  · intro ⟨p, a, b, hds, ht⟩
    have hne : s1 ≠ s2 := diffs_ne_of_singleton hds
    rw [firstDiffNucl]
    simp only [if_neg hne, hds]
    simp [ht]

theorem mem_dedupAdd (ret : List (Nat × String × String))
    (t x : Nat × String × String) :
    x ∈ dedupAdd ret t ↔ x ∈ ret ∨ x = t := by
  rw [dedupAdd]
  by_cases h : t ∈ ret
  · simp only [if_pos h]
    constructor
    · intro hx; exact Or.inl hx
    · intro hx
      cases hx with
      | inl hx => exact hx
      | inr hx => exact hx ▸ h
  · simp [if_neg h]

theorem nodup_dedupAdd (ret : List (Nat × String × String))
    (t : Nat × String × String) (h : ret.Nodup) : (dedupAdd ret t).Nodup := by
  rw [dedupAdd]
  by_cases hm : t ∈ ret
  · simpa [if_pos hm]
  · simp only [if_neg hm]
    rw [List.nodup_append]
    refine ⟨h, List.nodup_singleton t, ?_⟩
    intro a ha hat
    rw [List.mem_singleton] at hat
    subst hat
    exact hm ha

theorem pdcStep_none (f : String → Option (Nat × String × String))
    (ret : List (Nat × String × String)) (c : String) (h : f c = none) :
    pdcStep f ret c = ret := by
  rw [pdcStep, h]

theorem pdcStep_some (f : String → Option (Nat × String × String))
    (ret : List (Nat × String × String)) (c : String) (t : Nat × String × String)
    (h : f c = some t) : pdcStep f ret c = dedupAdd ret t := by
  rw [pdcStep, h]

theorem pdcFold_mem (f : String → Option (Nat × String × String)) :
    ∀ (l : List String) (init : List (Nat × String × String)) (x : Nat × String × String),
      (x ∈ l.foldl (pdcStep f) init) ↔ x ∈ init ∨ ∃ c ∈ l, f c = some x := by
  intro l
  induction l with
  | nil => intro init x; simp
  | cons c tail ih =>
      intro init x
      rw [List.foldl_cons]
      cases hf : f c with
      | none =>
          rw [pdcStep_none f init c hf, ih]
          constructor
          · intro h
            cases h with
            | inl h => exact Or.inl h
            | inr h =>
                obtain ⟨c2, hc2, hfc2⟩ := h
                exact Or.inr ⟨c2, List.mem_cons_of_mem c hc2, hfc2⟩
          · intro h
            cases h with
            | inl h => exact Or.inl h
            | inr h =>
                obtain ⟨c2, hc2, hfc2⟩ := h
                cases List.mem_cons.mp hc2 with
                | inl he =>
                    subst he
                    rw [hf] at hfc2
                    exact absurd hfc2 (by simp)
                | inr htail => exact Or.inr ⟨c2, htail, hfc2⟩
      | some t =>
          rw [pdcStep_some f init c t hf, ih]
          constructor
          · intro h
            cases h with
            | inl h =>
                cases (mem_dedupAdd init t x).mp h with
                | inl h2 => exact Or.inl h2
                | inr h2 => exact Or.inr ⟨c, by simp, by rw [hf, h2]⟩
            | inr h =>
                obtain ⟨c2, hc2, hfc2⟩ := h
                exact Or.inr ⟨c2, List.mem_cons_of_mem c hc2, hfc2⟩
          · intro h
            cases h with
            | inl h => exact Or.inl ((mem_dedupAdd init t x).mpr (Or.inl h))
            | inr h =>
                obtain ⟨c2, hc2, hfc2⟩ := h
                cases List.mem_cons.mp hc2 with
                | inl he =>
                    subst he
                    rw [hf] at hfc2
                    exact Or.inl ((mem_dedupAdd init t x).mpr
                      (Or.inr (Option.some_inj.mp hfc2).symm))
                | inr htail => exact Or.inr ⟨c2, htail, hfc2⟩

theorem pdcFold_nodup (f : String → Option (Nat × String × String)) :
    ∀ (l : List String) (init : List (Nat × String × String)),
      init.Nodup → (l.foldl (pdcStep f) init).Nodup := by
  intro l
  induction l with
  | nil => intro init h; simpa
  | cons c tail ih =>
      intro init h
      rw [List.foldl_cons]
      cases hf : f c with
      | none => rw [pdcStep_none f init c hf]; exact ih init h
      | some t => rw [pdcStep_some f init c t hf]; exact ih _ (nodup_dedupAdd init t h)

theorem possibleDnaChanges_eq (origAa mutAa origDna : String) :
    possibleDnaChanges origAa mutAa origDna =
      (backTrans mutAa).foldl
        (pdcStep (fun mutDna =>
          firstDiffNucl (asciiUpper origDna).data mutDna.data 1)) [] := rfl

/-- C4: in the default (non-relaxed) mode, `possibleDnaChanges` returns
exactly the deduplicated set of `(relativePosition, oldBase, newBase)`
tuples for back-translated candidate codons of `mutAa` differing from
the (upper-cased) reference in exactly one nucleotide; in particular
the two doctest examples for `("V","V","GTA")` and `("V","I","GTA")`. -/
theorem possibleDnaChanges_spec :
    (∀ origAa mutAa origDna : String, mutAa ≠ "" →
      origDna.length = 3 * mutAa.length →
      ((possibleDnaChanges origAa mutAa origDna).Nodup ∧
       ∀ t, t ∈ possibleDnaChanges origAa mutAa origDna ↔
         ∃ cand ∈ backTrans mutAa, ∃ p a b,
           diffs (asciiUpper origDna).data cand.data = [(p, a, b)] ∧
           t = (p, String.mk [a], String.mk [b]))) ∧
    possibleDnaChanges "V" "V" "GTA" = [(2, "A", "T"), (2, "A", "C"), (2, "A", "G")] ∧
    possibleDnaChanges "V" "I" "GTA" = [(0, "G", "A")] := by
  refine ⟨?_, by decide, by decide⟩
  intro origAa mutAa origDna hne hlen
  constructor
  · rw [possibleDnaChanges_eq]
    exact pdcFold_nodup _ (backTrans mutAa) [] List.nodup_nil
  · intro t
    rw [possibleDnaChanges_eq, pdcFold_mem]
    simp only [List.not_mem_nil, false_or]
    constructor
    · intro ⟨cand, hcand, hf⟩
      obtain ⟨p, a, b, hds, ht⟩ := firstDiffNucl_one.mp hf
      exact ⟨cand, hcand, p, a, b, hds, ht⟩
    · intro ⟨cand, hcand, p, a, b, hds, ht⟩
      exact ⟨cand, hcand, firstDiffNucl_one.mpr ⟨p, a, b, hds, ht⟩⟩

/-- C4 witness: the theorem applied at the concrete doctest input
`("V", "V", "GTA")`, evaluated at the tuple `(2, "A", "T")`. -/
theorem possibleDnaChanges_spec_witness :
    (possibleDnaChanges "V" "V" "GTA").Nodup ∧
    ((2, "A", "T") ∈ possibleDnaChanges "V" "V" "GTA" ↔
      ∃ cand ∈ backTrans "V", ∃ p a b,
        diffs (asciiUpper "GTA").data cand.data = [(p, a, b)] ∧
        ((2 : Nat), ("A" : String), ("T" : String)) = (p, String.mk [a], String.mk [b])) :=
  ⟨(possibleDnaChanges_spec.1 "V" "V" "GTA" (by decide) (by decide)).1,
   (possibleDnaChanges_spec.1 "V" "V" "GTA" (by decide) (by decide)).2 (2, "A", "T")⟩

/-! ### Match-interpreter inversion lemmas (C2, C3) -/

theorem parseMatchSub_ok {g : MatchGroups} {st : String} {ic : Bool} {v : VariantDescription}
    (h : parseMatchSub g st ic = .ok (some v)) :
    ∃ off o m, parseOffset g ic = .ok off ∧ subOrigSeq g = .ok o ∧ subMutSeq g = .ok m ∧
      ((∃ fp tp, g.fromPos = some fp ∧ g.toPos = some tp ∧
          v = { mutType := "sub", seqType := st, seqId := none, geneId := "",
                start := (fp : Int), endPos := (tp : Int),
                origSeq := some (asciiUpper o), mutSeq := some (asciiUpper m),
                origStr := pyStrip g.matched, offset := off }) ∨
       (∃ p, g.toPos = none ∧ g.pos = some p ∧
          isBlacklisted (asciiUpper o) p (asciiUpper m) = false ∧
          v = { mutType := "sub", seqType := st, seqId := none, geneId := "",
                start := (p : Int), endPos := (p : Int) + 1,
                origSeq := some (asciiUpper o), mutSeq := some (asciiUpper m),
                origStr := pyStrip g.matched, offset := off })) := by
  rw [parseMatchSub] at h
  cases hoff : parseOffset g ic with
  | error e => rw [hoff] at h; simp at h
  | ok off =>
    rw [hoff, exc_bind_ok] at h
    cases hso : subOrigSeq g with
    | error e => rw [hso] at h; simp at h
    | ok o =>
      rw [hso, exc_bind_ok] at h
      cases hsm : subMutSeq g with
      | error e => rw [hsm] at h; simp at h
      | ok m =>
        rw [hsm, exc_bind_ok] at h
        cases hto : g.toPos with
        | some tp =>
            rw [hto] at h
            cases hfp : g.fromPos with
            | none => rw [hfp] at h; simp at h
            | some fp =>
                rw [hfp] at h
                simp only [req_some, exc_bind_ok, exc_pure_eq] at h
                injection h with h2
                injection h2 with h3
                exact ⟨off, o, m, rfl, rfl, rfl, Or.inl ⟨fp, tp, rfl, rfl, h3.symm⟩⟩
        | none =>
            rw [hto] at h
            cases hp : g.pos with
            | none => rw [hp] at h; simp at h
            | some p =>
                rw [hp] at h
                simp only [req_some, exc_bind_ok] at h
                by_cases hb : isBlacklisted (asciiUpper o) p (asciiUpper m)
                · rw [if_pos hb] at h
                  simp at h
                · rw [if_neg hb] at h
                  simp only [exc_pure_eq] at h
                  injection h with h2
                  injection h2 with h3
                  exact ⟨off, o, m, rfl, rfl, rfl,
                    Or.inr ⟨p, rfl, rfl, by simpa using hb, h3.symm⟩⟩

theorem parseMatchDel_ok {g : MatchGroups} {st : String} {ic : Bool} {v : VariantDescription}
    (h : parseMatchDel g st ic = .ok (some v)) :
    ∃ off o, parseOffset g ic = .ok off ∧ delOrigSeq g = .ok o ∧
      v.mutType = "del" ∧ v.origSeq = some (asciiUpper o) ∧ v.mutSeq = none ∧
      ((∃ fp tp, g.fromPos = some fp ∧ g.toPos = some tp ∧
          v.start = (fp : Int) ∧ v.endPos = (tp : Int) + 1) ∨
       (∃ p, g.toPos = none ∧ g.pos = some p ∧
          v.start = (p : Int) ∧ v.endPos = (p : Int) + 1)) := by
  rw [parseMatchDel] at h
  cases hoff : parseOffset g ic with
  | error e => rw [hoff] at h; simp at h
  | ok off =>
    rw [hoff, exc_bind_ok] at h
    cases hto : g.toPos with
    | some tp =>
        rw [hto] at h
        cases hfp : g.fromPos with
        | none => rw [hfp] at h; simp at h
        | some fp =>
            rw [hfp] at h
            simp only [req_some, exc_bind_ok, exc_pure_eq] at h
            cases hdo : delOrigSeq g with
            | error e => rw [hdo] at h; simp at h
            | ok o =>
                rw [hdo, exc_bind_ok] at h
                injection h with h2
                injection h2 with h3
                subst h3
                exact ⟨off, o, rfl, rfl, rfl, rfl, rfl,
                  Or.inl ⟨fp, tp, rfl, rfl, rfl, rfl⟩⟩
    | none =>
        rw [hto] at h
        cases hp : g.pos with
        | none => rw [hp] at h; simp at h
        | some p =>
            rw [hp] at h
            simp only [req_some, exc_bind_ok, exc_pure_eq] at h
            cases hdo : delOrigSeq g with
            | error e => rw [hdo] at h; simp at h
            | ok o =>
                rw [hdo, exc_bind_ok] at h
                injection h with h2
                injection h2 with h3
                subst h3
                exact ⟨off, o, rfl, rfl, rfl, rfl, rfl,
                  Or.inr ⟨p, rfl, rfl, rfl, rfl⟩⟩

theorem parseMatchIns_ok {g : MatchGroups} {st : String} {ic : Bool} {v : VariantDescription}
    (h : parseMatchIns g st ic = .ok (some v)) :
    ∃ off m0, parseOffset g ic = .ok off ∧ insMutSeq g = .ok m0 ∧
      v.mutType = "ins" ∧ v.origSeq = none ∧
      ((∃ fp tp, g.fromPos = some fp ∧ g.toPos = some tp ∧
          v.start = (fp : Int) ∧ v.endPos = (tp : Int)) ∨
       (∃ p, g.toPos = none ∧ g.pos = some p ∧
          v.start = (p : Int) ∧ v.endPos = (p : Int) + 1)) := by
  rw [parseMatchIns] at h
  cases hoff : parseOffset g ic with
  | error e => rw [hoff] at h; simp at h
  | ok off =>
    rw [hoff, exc_bind_ok] at h
    cases hto : g.toPos with
    | some tp =>
        rw [hto] at h
        cases hfp : g.fromPos with
        | none => rw [hfp] at h; simp at h
        | some fp =>
            rw [hfp] at h
            simp only [req_some, exc_bind_ok, exc_pure_eq] at h
            cases him : insMutSeq g with
            | error e => rw [him] at h; simp at h
            | ok m0 =>
                rw [him, exc_bind_ok] at h
                injection h with h2
                injection h2 with h3
                subst h3
                exact ⟨off, m0, rfl, rfl, rfl, rfl,
                  Or.inl ⟨fp, tp, rfl, rfl, rfl, rfl⟩⟩
    | none =>
        rw [hto] at h
        cases hp : g.pos with
        | none => rw [hp] at h; simp at h
        | some p =>
            rw [hp] at h
            simp only [req_some, exc_bind_ok, exc_pure_eq] at h
            cases him : insMutSeq g with
            | error e => rw [him] at h; simp at h
            | ok m0 =>
                rw [him, exc_bind_ok] at h
                injection h with h2
                injection h2 with h3
                subst h3
                exact ⟨off, m0, rfl, rfl, rfl, rfl,
                  Or.inr ⟨p, rfl, rfl, rfl, rfl⟩⟩

theorem dupRange_ok {g : MatchGroups} {origSeq : String} {se : Int × Int}
    (h : dupRange g origSeq = .ok se) :
    (∃ p, g.pos = some p ∧ se.1 = (p : Int) ∧ se.2 = (p : Int) + 1) ∨
    (∃ fp tp, g.pos = none ∧ g.fromPos = some fp ∧ g.toPos = some tp ∧
      se.1 = (fp : Int) ∧ (se.2 = (tp : Int) ∨ se.2 = (tp : Int) + 1)) := by
  rw [dupRange] at h
  cases hp : g.pos with
  | some p =>
      rw [hp] at h
      injection h with h2
      subst h2
      exact Or.inl ⟨p, rfl, rfl, rfl⟩
  | none =>
      rw [hp] at h
      cases hfp : g.fromPos with
      | none => rw [hfp] at h; simp at h
      | some fp =>
          rw [hfp] at h
          cases hto : g.toPos with
          | none => rw [hto] at h; simp at h
          | some tp =>
              rw [hto] at h
              simp only [req_some, exc_bind_ok] at h
              by_cases hc : ((tp : Int) - (fp : Int) ≠ (origSeq.length : Int) ∧
                  (tp : Int) - (fp : Int) = (origSeq.length : Int) - 1)
              · rw [if_pos hc] at h
                injection h with h2
                subst h2
                exact Or.inr ⟨fp, tp, rfl, rfl, rfl, rfl, Or.inr rfl⟩
              · rw [if_neg hc] at h
                injection h with h2
                subst h2
                exact Or.inr ⟨fp, tp, rfl, rfl, rfl, rfl, Or.inl rfl⟩

theorem parseMatchDup_ok {g : MatchGroups} {st : String} {ic : Bool} {v : VariantDescription}
    (h : parseMatchDup g st ic = .ok (some v)) :
    ∃ off o, parseOffset g ic = .ok off ∧ v.mutType = "dup" ∧
      v.origSeq = some o ∧
      ((∃ p, g.pos = some p ∧ v.start = (p : Int) ∧ v.endPos = (p : Int) + 1) ∨
       (∃ fp tp, g.pos = none ∧ g.fromPos = some fp ∧ g.toPos = some tp ∧
          v.start = (fp : Int) ∧
          (v.endPos = (tp : Int) ∨ v.endPos = (tp : Int) + 1))) := by
  rw [parseMatchDup] at h
  cases hoff : parseOffset g ic with
  | error e => rw [hoff] at h; simp at h
  | ok off =>
    rw [hoff, exc_bind_ok] at h
    cases hos : dupOrigSeq g with
    | error e => rw [hos] at h; simp at h
    | ok o =>
      rw [hos, exc_bind_ok] at h
      cases hse : dupRange g o with
      | error e => rw [hse] at h; simp at h
      | ok se =>
          rw [hse, exc_bind_ok] at h
          injection h with h2
          injection h2 with h3
          subst h3
          cases dupRange_ok hse with
          | inl hcase =>
              obtain ⟨p, hp, h1, h2⟩ := hcase
              exact ⟨off, o, rfl, rfl, rfl, Or.inl ⟨p, hp, h1, h2⟩⟩
          | inr hcase =>
              obtain ⟨fp, tp, hp, hfp, hto, h1, h2⟩ := hcase
              exact ⟨off, o, rfl, rfl, rfl, Or.inr ⟨fp, tp, hp, hfp, hto, h1, h2⟩⟩

theorem parseMatchSplicing_ok {g : MatchGroups} {st : String} {v : VariantDescription}
    (h : parseMatchSplicing g st = .ok (some v)) :
    ∃ p, g.pos = some p ∧ v.start = (p : Int) ∧ v.endPos = (p : Int) + 1 ∧
      v.mutType = "splicing" := by
  rw [parseMatchSplicing] at h
  cases hp : g.pos with
  | none => rw [hp] at h; simp at h
  | some p =>
      rw [hp] at h
      simp only [req_some, exc_bind_ok] at h
      cases hpm : g.plusMinus with
      | none => rw [hpm] at h; simp at h
      | some pm =>
          rw [hpm] at h
          simp only [req_some, exc_bind_ok] at h
          cases hoffg : g.offset with
          | none => rw [hoffg] at h; simp at h
          | some off0 =>
              rw [hoffg] at h
              simp only [req_some, exc_bind_ok] at h
              by_cases hplus : pm = "+"
              · rw [if_pos hplus] at h
                simp only [exc_pure_eq, exc_bind_ok] at h
                cases hod : g.origDna with
                | none => rw [hod] at h; simp at h
                | some od =>
                    rw [hod] at h
                    simp only [req_some, exc_bind_ok] at h
                    cases hmd : g.mutDna with
                    | none => rw [hmd] at h; simp at h
                    | some md =>
                        rw [hmd] at h
                        simp only [req_some, exc_bind_ok, exc_pure_eq] at h
                        injection h with h2
                        injection h2 with h3
                        subst h3
                        exact ⟨p, rfl, rfl, rfl, rfl⟩
              · rw [if_neg hplus] at h
                by_cases hminus : pm = "-"
                · rw [if_pos hminus] at h
                  simp only [exc_pure_eq, exc_bind_ok] at h
                  cases hod : g.origDna with
                  | none => rw [hod] at h; simp at h
                  | some od =>
                      rw [hod] at h
                      simp only [req_some, exc_bind_ok] at h
                      cases hmd : g.mutDna with
                      | none => rw [hmd] at h; simp at h
                      | some md =>
                          rw [hmd] at h
                          simp only [req_some, exc_bind_ok, exc_pure_eq] at h
                          injection h with h2
                          injection h2 with h3
                          subst h3
                          exact ⟨p, rfl, rfl, rfl, rfl⟩
                · rw [if_neg hminus] at h
                  simp at h

theorem parseMatchRsId_ok {rsf : String → Option (String × Int × Int)}
    {g : MatchGroups} {v : VariantDescription}
    (h : parseMatchRsId rsf g = .ok (some v)) :
    ∃ r c s e, g.rsId = some r ∧ rsf r = some (c, s, e) ∧
      v.start = s ∧ v.endPos = e ∧ v.mutType = "dbSnp" ∧ v.seqType = "dbSnp" := by
  rw [parseMatchRsId] at h
  cases hr : g.rsId with
  | none => rw [hr] at h; simp at h
  | some r =>
      rw [hr] at h
      simp only [req_some, exc_bind_ok] at h
      cases hlk : rsf r with
      | none => rw [hlk] at h; simp at h
      | some cse =>
          rw [hlk] at h
          simp only [exc_pure_eq] at h
          injection h with h2
          injection h2 with h3
          subst h3
          exact ⟨r, cse.1, cse.2.1, cse.2.2, rfl, by rw [hlk], rfl, rfl, rfl, rfl⟩

/-! ### Sequence-length lemmas for the substitution groups (C2) -/

theorem lookup_val_prop {P : String → Prop} :
    ∀ (l : List (String × String)), (∀ p ∈ l, P p.2) →
      ∀ {s t : String}, l.lookup s = some t → P t := by
  intro l
  induction l with
  | nil => intro _ s t h; simp [List.lookup] at h
  | cons a rest ih =>
      intro hl s t h
      rw [List.lookup] at h
      cases hbeq : s == a.1 with
      | true =>
          rw [hbeq] at h
          simp at h
          exact h ▸ hl a (by simp)
      | false =>
          rw [hbeq] at h
          simp at h
          exact ih (fun p hp => hl p (by simp [hp])) h

theorem threeToOne_len {s t : String} (h : threeToOneLower s = some t) :
    t.length = 1 :=
  lookup_val_prop (P := fun u => u.length = 1) threeToOneList (by decide) h

theorem subOrigSeq_len {g : MatchGroups} {o : String}
    (h : subOrigSeq g = .ok o)
    (h1 : ∀ s, g.origAaShort = some s → s.length = 1)
    (h2 : ∀ s, g.origDna = some s → s.length = 1) :
    o.length = 1 := by
  rw [subOrigSeq] at h
  cases hL : g.origAaLong with
  | some s =>
      cases hT : threeToOneLower (asciiLower s) with
      | none => simp [hL, hT] at h
      | some t =>
          simp only [hL, hT, req_some, exc_bind_ok] at h
          cases hD : g.origDna with
          | some d =>
              simp only [hD, req_some] at h
              injection h with h3
              exact h3 ▸ h2 d hD
          | none =>
              simp only [hD, req_some] at h
              injection h with h3
              exact h3 ▸ threeToOne_len hT
  | none =>
      simp only [hL, exc_bind_ok] at h
      cases hD : g.origDna with
      | some d =>
          simp only [hD, req_some] at h
          injection h with h3
          exact h3 ▸ h2 d hD
      | none =>
          simp only [hD] at h
          cases hS : g.origAaShort with
          | none => simp [hS] at h
          | some s =>
              simp only [hS, req_some] at h
              injection h with h3
              exact h3 ▸ h1 s hS

theorem subMutSeq_len {g : MatchGroups} {m : String}
    (h : subMutSeq g = .ok m)
    (h1 : ∀ s, g.mutAaShort = some s → s.length = 1)
    (h2 : ∀ s, g.mutDna = some s → s.length = 1) :
    m.length = 1 := by
  rw [subMutSeq] at h
  cases hL : g.mutAaLong with
  | some s =>
      cases hT : threeToOneLower (asciiLower s) with
      | none => simp [hL, hT] at h
      | some t =>
          simp only [hL, hT, req_some, exc_bind_ok] at h
          cases hD : g.mutDna with
          | some d =>
              simp only [hD, req_some] at h
              injection h with h3
              exact h3 ▸ h2 d hD
          | none =>
              simp only [hD, req_some] at h
              injection h with h3
              exact h3 ▸ threeToOne_len hT
  | none =>
      simp only [hL, exc_bind_ok] at h
      cases hD : g.mutDna with
      | some d =>
          simp only [hD, req_some] at h
          injection h with h3
          exact h3 ▸ h2 d hD
      | none =>
          simp only [hD] at h
          cases hS : g.mutAaShort with
          | none => simp [hS] at h
          | some s =>
              simp only [hS, req_some] at h
              injection h with h3
              exact h3 ▸ h1 s hS

/-- C2 counterexample: `parseMatchDel` on a match with the ill-ordered
explicit range `fromPos = 5`, `toPos = 3` (text `5_3delA`) produces a
variant with `start = 5`, `end = 4`, refuting `start < end` for
variants produced by the Match Interpreter functions. -/
theorem matchInterpreter_invariants_cex :
    parseMatchDel delCexGroups "dna" true = .ok (some delCexVar) ∧
    ¬(delCexVar.start < delCexVar.endPos) :=
  ⟨by decide, by decide⟩

/-- C2 (amended): every variant produced by the six Match Interpreter
functions has non-negative `start` and `end` (for `parseMatchRsId`,
provided the external dbSNP store returns well-formed intervals);
`start < end` holds for every variant produced from a single-position
match, and for explicit from/to ranges that are well-ordered
(`fromPos ≤ toPos` for del, `fromPos < toPos` for ins and dup); for a
substitution produced from a single-position match,
`len(origSeq) = len(mutSeq) = end - start (= 1)`, provided the matched
sequence groups are the single-character classes of the pattern
registry.  For ill-ordered explicit ranges `start < end` can fail (see
the counterexample). -/
theorem matchInterpreter_invariants :
    (∀ (g : MatchGroups) (st : String) (ic : Bool) (v : VariantDescription),
       parseMatchSub g st ic = .ok (some v) →
       0 ≤ v.start ∧ 0 ≤ v.endPos ∧
       (g.toPos = none → v.start < v.endPos ∧ v.endPos - v.start = 1)) ∧
    (∀ (g : MatchGroups) (st : String) (ic : Bool) (v : VariantDescription),
       parseMatchSub g st ic = .ok (some v) → g.toPos = none →
       (∀ s, g.origAaShort = some s → s.length = 1) →
       (∀ s, g.origDna = some s → s.length = 1) →
       (∀ s, g.mutAaShort = some s → s.length = 1) →
       (∀ s, g.mutDna = some s → s.length = 1) →
       ∃ os ms, v.origSeq = some os ∧ v.mutSeq = some ms ∧
         (os.length : Int) = v.endPos - v.start ∧
         (ms.length : Int) = v.endPos - v.start) ∧
    (∀ (g : MatchGroups) (st : String) (ic : Bool) (v : VariantDescription),
       parseMatchDel g st ic = .ok (some v) →
       0 ≤ v.start ∧ 0 ≤ v.endPos ∧
       (g.toPos = none → v.start < v.endPos) ∧
       (∀ fp tp, g.fromPos = some fp → g.toPos = some tp → fp ≤ tp →
         v.start < v.endPos)) ∧
    (∀ (g : MatchGroups) (st : String) (ic : Bool) (v : VariantDescription),
       parseMatchIns g st ic = .ok (some v) →
       0 ≤ v.start ∧ 0 ≤ v.endPos ∧
       (g.toPos = none → v.start < v.endPos) ∧
       (∀ fp tp, g.fromPos = some fp → g.toPos = some tp → fp < tp →
         v.start < v.endPos)) ∧
    (∀ (g : MatchGroups) (st : String) (ic : Bool) (v : VariantDescription),
       parseMatchDup g st ic = .ok (some v) →
       0 ≤ v.start ∧ 0 ≤ v.endPos ∧
       (∀ p, g.pos = some p → v.start < v.endPos) ∧
       (g.pos = none → ∀ fp tp, g.fromPos = some fp → g.toPos = some tp →
         fp < tp → v.start < v.endPos)) ∧
    (∀ (g : MatchGroups) (st : String) (v : VariantDescription),
       parseMatchSplicing g st = .ok (some v) →
       0 ≤ v.start ∧ 0 ≤ v.endPos ∧ v.start < v.endPos) ∧
    (∀ (rsf : String → Option (String × Int × Int)) (g : MatchGroups)
       (v : VariantDescription),
       (∀ r c s e, rsf r = some (c, s, e) → 0 ≤ s ∧ s < e) →
       parseMatchRsId rsf g = .ok (some v) →
       0 ≤ v.start ∧ 0 ≤ v.endPos ∧ v.start < v.endPos) := by
  refine ⟨?_, ?_, ?_, ?_, ?_, ?_, ?_⟩
  · -- parseMatchSub positions
    intro g st ic v h
    obtain ⟨off, o, m, _, _, _, hcase⟩ := parseMatchSub_ok h
    cases hcase with
    | inl hc =>
        obtain ⟨fp, tp, hfp, hto, hv⟩ := hc
        subst hv
        refine ⟨by simp, by simp, ?_⟩
        intro hnone
        rw [hto] at hnone
        exact absurd hnone (by simp)
    | inr hc =>
        obtain ⟨p, hto, hp, hbl, hv⟩ := hc
        subst hv
        refine ⟨by simp, ?_, ?_⟩
        · show (0 : Int) ≤ (p : Int) + 1
          omega
        · intro _
          constructor
          · show (p : Int) < (p : Int) + 1
            omega
          · show (p : Int) + 1 - (p : Int) = 1
            omega
  · -- parseMatchSub sequence lengths on single-position matches
    intro g st ic v h hnone hl1 hl2 hl3 hl4
    obtain ⟨off, o, m, hoff, hso, hsm, hcase⟩ := parseMatchSub_ok h
    cases hcase with
    | inl hc =>
        obtain ⟨fp, tp, hfp, hto, hv⟩ := hc
        rw [hnone] at hto
        exact absurd hto (by simp)
    | inr hc =>
        obtain ⟨p, hto, hp, hbl, hv⟩ := hc
        subst hv
        refine ⟨asciiUpper o, asciiUpper m, rfl, rfl, ?_, ?_⟩
        · have : (asciiUpper o).length = 1 := by
            rw [asciiUpper_length]
            exact subOrigSeq_len hso hl1 hl2
          rw [this]
          show (1 : Int) = (p : Int) + 1 - (p : Int)
          omega
        · have : (asciiUpper m).length = 1 := by
            rw [asciiUpper_length]
            exact subMutSeq_len hsm hl3 hl4
          rw [this]
          show (1 : Int) = (p : Int) + 1 - (p : Int)
          omega
  · -- parseMatchDel positions
    intro g st ic v h
    obtain ⟨off, o, _, _, _, _, _, hcase⟩ := parseMatchDel_ok h
    cases hcase with
    | inl hc =>
        obtain ⟨fp, tp, hfp, hto, hstart, hend⟩ := hc
        rw [hstart, hend]
        refine ⟨by simp, by omega, ?_, ?_⟩
        · intro hnone; rw [hnone] at hto; exact absurd hto (by simp)
        · intro fp2 tp2 hfp2 htp2 hle
          rw [hfp] at hfp2
          rw [hto] at htp2
          injection hfp2 with he1
          injection htp2 with he2
          subst he1; subst he2
          omega
    | inr hc =>
        obtain ⟨p, hto, hp, hstart, hend⟩ := hc
        rw [hstart, hend]
        refine ⟨by simp, by omega, fun _ => by omega, ?_⟩
        intro fp2 tp2 hfp2 htp2 hle
        rw [hto] at htp2
        exact absurd htp2 (by simp)
  · -- parseMatchIns positions
    intro g st ic v h
    obtain ⟨off, m0, _, _, _, _, hcase⟩ := parseMatchIns_ok h
    cases hcase with
    | inl hc =>
        obtain ⟨fp, tp, hfp, hto, hstart, hend⟩ := hc
        rw [hstart, hend]
        refine ⟨by simp, by simp, ?_, ?_⟩
        · intro hnone; rw [hnone] at hto; exact absurd hto (by simp)
        · intro fp2 tp2 hfp2 htp2 hlt
          rw [hfp] at hfp2
          rw [hto] at htp2
          injection hfp2 with he1
          injection htp2 with he2
          subst he1; subst he2
          omega
    | inr hc =>
        obtain ⟨p, hto, hp, hstart, hend⟩ := hc
        rw [hstart, hend]
        refine ⟨by simp, by omega, fun _ => by omega, ?_⟩
        intro fp2 tp2 hfp2 htp2 hlt
        rw [hto] at htp2
        exact absurd htp2 (by simp)
  · -- parseMatchDup positions
    intro g st ic v h
    obtain ⟨off, o, _, _, _, hcase⟩ := parseMatchDup_ok h
    cases hcase with
    | inl hc =>
        obtain ⟨p, hp, hstart, hend⟩ := hc
        rw [hstart, hend]
        refine ⟨by simp, by omega, fun p2 _ => by omega, ?_⟩
        intro hpn
        rw [hpn] at hp
        exact absurd hp (by simp)
    | inr hc =>
        obtain ⟨fp, tp, hpn, hfp, hto, hstart, hend⟩ := hc
        rw [hstart]
        refine ⟨by simp, ?_, ?_, ?_⟩
        · cases hend with
          | inl he => rw [he]; simp
          | inr he => rw [he]; omega
        · intro p2 hp2
          rw [hpn] at hp2
          exact absurd hp2 (by simp)
        · intro _ fp2 tp2 hfp2 htp2 hlt
          rw [hfp] at hfp2
          rw [hto] at htp2
          injection hfp2 with he1
          injection htp2 with he2
          subst he1; subst he2
          cases hend with
          | inl he => rw [he]; omega
          | inr he => rw [he]; omega
  · -- parseMatchSplicing positions
    intro g st v h
    obtain ⟨p, hp, hstart, hend, _⟩ := parseMatchSplicing_ok h
    rw [hstart, hend]
    refine ⟨by simp, by omega, by omega⟩
  · -- parseMatchRsId positions (under a well-formed dbSNP store)
    intro rsf g v hdb h
    obtain ⟨r, c, s, e, hr, hlk, hstart, hend, _, _⟩ := parseMatchRsId_ok h
    obtain ⟨hs, hse⟩ := hdb r c s e hlk
    rw [hstart, hend]
    exact ⟨hs, by omega, hse⟩

/-- C2 witness: the amended theorem applied to one concrete match per
interpreter function. -/
theorem matchInterpreter_invariants_witness :
    (parseMatchSub protSubGroups "prot" true = .ok (some protSubVar) ∧
      (0 ≤ protSubVar.start ∧ 0 ≤ protSubVar.endPos ∧
       (protSubGroups.toPos = none →
         protSubVar.start < protSubVar.endPos ∧
         protSubVar.endPos - protSubVar.start = 1))) ∧
    (parseMatchDel delCexGroups "dna" true = .ok (some delCexVar) ∧
      0 ≤ delCexVar.start ∧ 0 ≤ delCexVar.endPos) ∧
    (parseMatchIns insWitGroups "prot" true = .ok (some insWitVar) ∧
      (insWitGroups.toPos = none → insWitVar.start < insWitVar.endPos)) ∧
    (parseMatchDup dupWitGroups "dna" true = .ok (some dupWitVar) ∧
      (∀ p, dupWitGroups.pos = some p → dupWitVar.start < dupWitVar.endPos)) ∧
    (parseMatchSplicing splWitGroups "intron" = .ok (some splWitVar) ∧
      splWitVar.start < splWitVar.endPos) ∧
    (parseMatchRsId rsWitLookup rsWitGroups = .ok (some rsWitVar) ∧
      rsWitVar.start < rsWitVar.endPos) := by
  have hdb : ∀ r c s e, rsWitLookup r = some (c, s, e) → 0 ≤ s ∧ s < e := by
    intro r c s e h
    rw [rsWitLookup] at h
    injection h with h2
    cases h2
    exact ⟨by decide, by decide⟩
  refine ⟨⟨by decide, matchInterpreter_invariants.1 protSubGroups "prot" true
      protSubVar (by decide)⟩,
    ⟨by decide, ?_, ?_⟩,
    ⟨by decide, fun h => (matchInterpreter_invariants.2.2.2.1 insWitGroups "prot" true
      insWitVar (by decide)).2.2.1 h⟩,
    ⟨by decide, fun p hp => (matchInterpreter_invariants.2.2.2.2.1 dupWitGroups "dna" true
      dupWitVar (by decide)).2.2.1 p hp⟩,
    ⟨by decide, (matchInterpreter_invariants.2.2.2.2.2.1 splWitGroups "intron"
      splWitVar (by decide)).2.2⟩,
    ⟨by decide, (matchInterpreter_invariants.2.2.2.2.2.2 rsWitLookup rsWitGroups
      rsWitVar hdb (by decide)).2.2⟩⟩
  · exact (matchInterpreter_invariants.2.2.1 delCexGroups "dna" true
      delCexVar (by decide)).1
  · exact (matchInterpreter_invariants.2.2.1 delCexGroups "dna" true
      delCexVar (by decide)).2.1

/-! ### Blacklist filtering (C3) -/

theorem aggStep_skip (rsf : String → Option (String × Int × Int))
    (excl : List Nat) (agg : VarAgg) (m : RawMatch)
    (h : dispatchMatch rsf m = .ok none) :
    aggStep rsf excl agg m = .ok agg := by
  rw [aggStep]
  by_cases ho : isOverlapping m.groups excl
  · rw [if_pos ho]
    rfl
  · rw [if_neg ho, h, exc_bind_ok]
    rfl

theorem buildAgg_append (rsf : String → Option (String × Int × Int))
    (excl : List Nat) :
    ∀ (xs ys : List RawMatch) (agg : VarAgg),
      buildAgg rsf (xs ++ ys) excl agg =
        buildAgg rsf xs excl agg >>= fun a2 => buildAgg rsf ys excl a2 := by
  intro xs
  induction xs with
  | nil => intro ys agg; rw [List.nil_append, buildAgg, exc_bind_ok]
  | cons m rest ih =>
      intro ys agg
      rw [List.cons_append, buildAgg, buildAgg]
      cases hs : aggStep rsf excl agg m with
      | error e => simp
      | ok agg2 => rw [exc_bind_ok, exc_bind_ok, ih]

/-- C3: a blacklisted `(origSeq, position, mutSeq)` triple (fixed set or
heuristic) makes `parseMatchSub` return no variant on a single-position
match; such a match contributes nothing to `findVariantDescriptions`;
and in particular `("T", 47, "D")` is blacklisted, so the match `T47D`
alone yields a result with an empty `prot` bucket. -/
theorem blacklist_discards :
    (∀ (g : MatchGroups) (st : String) (ic : Bool) (off : Int) (o m : String)
       (p : Nat),
       parseOffset g ic = .ok off → subOrigSeq g = .ok o → subMutSeq g = .ok m →
       g.toPos = none → g.pos = some p →
       isBlacklisted (asciiUpper o) p (asciiUpper m) = true →
       parseMatchSub g st ic = .ok none) ∧
    (∀ (rsf : String → Option (String × Int × Int)) (ms1 ms2 : List RawMatch)
       (m : RawMatch) (excl : List Nat),
       dispatchMatch rsf m = .ok none →
       findVariantDescriptions rsf (ms1 ++ m :: ms2) excl =
         findVariantDescriptions rsf (ms1 ++ ms2) excl) ∧
    isBlacklisted "T" 47 "D" = true ∧
    parseMatchSub t47dGroups "prot" true = .ok none ∧
    findVariantDescriptions rsLookup0 [t47dMatch] [] = .ok emptyBuckets := by
  refine ⟨?_, ?_, by decide, by decide, by decide⟩
  · intro g st ic off o m p hoff hso hsm hto hp hbl
    rw [parseMatchSub, hoff, exc_bind_ok, hso, exc_bind_ok, hsm, exc_bind_ok, hto]
    simp only [hp, req_some, exc_bind_ok]
    rw [if_pos hbl]
    rfl
  · intro rsf ms1 ms2 m excl h
    rw [findVariantDescriptions, findVariantDescriptions]
    rw [buildAgg_append, buildAgg_append]
    congr 1
    congr 1
    funext a2
    rw [buildAgg, aggStep_skip rsf excl a2 m h, exc_bind_ok]

/-- C3 witness: the theorem applied to the concrete `T47D` match. -/
theorem blacklist_discards_witness :
    parseMatchSub t47dGroups "prot" true = .ok none ∧
    findVariantDescriptions rsLookup0 ([] ++ t47dMatch :: []) [] =
      findVariantDescriptions rsLookup0 ([] ++ []) [] :=
  ⟨blacklist_discards.1 t47dGroups "prot" true 0 "T" "D" 47
      (by decide) (by decide) (by decide) (by decide) (by decide) (by decide),
   blacklist_discards.2.1 rsLookup0 [] [] t47dMatch []
      (by decide)⟩

/-! ### Merge-by-canonical-name lemmas (C1) -/

theorem optAppend_nil (o : Option (List Mention)) : optAppend o [] = o := by
  cases o <;> simp [optAppend]

theorem optAppend_snoc (o : Option (List Mention)) (x : Mention) (l : List Mention) :
    optAppend o (x :: l) = optAppend (some (o.getD [] ++ [x])) l := by
  cases o with
  | none =>
      cases l <;> simp [optAppend]
  | some ms =>
      cases l <;> simp [optAppend]

theorem lookupA_appendAt :
    ∀ (l : List (String × List Mention)) (k : String) (m : Mention) (n : String),
      lookupA (appendAt l k m) n =
        if n = k then some ((lookupA l n).getD [] ++ [m]) else lookupA l n := by
  intro l
  induction l with
  | nil =>
      intro k m n
      by_cases h : n = k
      · subst h
        simp [appendAt, lookupA]
      · have h2 : ¬(k = n) := fun hh => h hh.symm
        simp [appendAt, lookupA, h, h2]
  | cons pair rest ih =>
      obtain ⟨k2, ms2⟩ := pair
      intro k m n
      by_cases hk : k2 = k
      · subst hk
        by_cases hn : n = k2
        · subst hn
          simp [appendAt, lookupA]
        · have h2 : ¬(k2 = n) := fun hh => hn hh.symm
          simp [appendAt, lookupA, hn, h2]
      · by_cases hn : n = k2
        · subst hn
          have h2 : ¬(n = k) := fun hh => hk (hh ▸ rfl)
          simp [appendAt, lookupA, hk, h2]
        · have h2 : ¬(k2 = n) := fun hh => hn hh.symm
          simp [appendAt, lookupA, hk, h2, ih]


theorem lookupA_upsert :
    ∀ (l : List (String × VariantDescription)) (k : String)
      (v : VariantDescription) (n : String),
      lookupA (upsert l k v) n = if n = k then some v else lookupA l n := by
  intro l
  induction l with
  | nil =>
      intro k v n
      by_cases h : n = k
      · subst h
        simp [upsert, lookupA]
      · have h2 : ¬(k = n) := fun hh => h hh.symm
        simp [upsert, lookupA, h, h2]
  | cons pair rest ih =>
      obtain ⟨k2, v2⟩ := pair
      intro k v n
      by_cases hk : k2 = k
      · subst hk
        by_cases hn : n = k2
        · subst hn
          simp [upsert, lookupA]
        · have h2 : ¬(k2 = n) := fun hh => hn hh.symm
          simp [upsert, lookupA, hn, h2]
      · by_cases hn : n = k2
        · subst hn
          have h2 : ¬(n = k) := fun hh => hk (hh ▸ rfl)
          simp [upsert, lookupA, hk, h2]
        · have h2 : ¬(k2 = n) := fun hh => hn hh.symm
          simp [upsert, lookupA, hk, h2, ih]

theorem mentionsForName_cons (v : VariantDescription) (m : Mention)
    (rs : List (VariantDescription × Mention)) (n : String) :
    mentionsForName ((v, m) :: rs) n =
      if getName v = .ok n then m :: mentionsForName rs n
      else mentionsForName rs n := by
  rw [mentionsForName, List.filterMap_cons]
  by_cases h : getName v = .ok n
  · simp only [h, if_pos]
    rfl
  · simp only [h, if_neg, if_false]
    rfl

theorem aggStep_cases (rsf : String → Option (String × Int × Int))
    (excl : List Nat) (agg : VarAgg) (m : RawMatch) (agg2 : VarAgg)
    (h : aggStep rsf excl agg m = .ok agg2) :
    agg2 = agg ∨
    ∃ variant nm, isOverlapping m.groups excl = false ∧
      dispatchMatch rsf m = .ok (some variant) ∧ getName variant = .ok nm ∧
      agg2 = { varDescObj := upsert agg.varDescObj nm variant,
               varMentions := appendAt agg.varMentions nm
                 (makeMention m.groups m.patName) } := by
  rw [aggStep] at h
  by_cases ho : isOverlapping m.groups excl
  · rw [if_pos ho] at h
    injection h with h2
    exact Or.inl h2.symm
  · rw [if_neg ho] at h
    cases hd : dispatchMatch rsf m with
    | error e => rw [hd] at h; simp at h
    | ok v0 =>
        rw [hd, exc_bind_ok] at h
        cases v0 with
        | none =>
            simp only [exc_pure_eq] at h
            injection h with h2
            exact Or.inl h2.symm
        | some variant =>
            cases hn : getName variant with
            | error e => simp only [hn, exc_bind_error] at h; simp at h
            | ok nm =>
                simp only [hn, exc_bind_ok, exc_pure_eq] at h
                injection h with h2
                exact Or.inr ⟨variant, nm, by simpa using ho, rfl, hn, h2.symm⟩

theorem buildAgg_mentions (rsf : String → Option (String × Int × Int))
    (excl : List Nat) :
    ∀ (ms : List RawMatch) (agg agg2 : VarAgg)
      (rs : List (VariantDescription × Mention)),
      buildAgg rsf ms excl agg = .ok agg2 →
      survivingResults rsf ms excl = .ok rs →
      ∀ n, lookupA agg2.varMentions n =
        optAppend (lookupA agg.varMentions n) (mentionsForName rs n) := by
  intro ms
  induction ms with
  | nil =>
      intro agg agg2 rs h1 h2 n
      rw [buildAgg] at h1
      rw [survivingResults] at h2
      injection h1 with h1b
      injection h2 with h2b
      subst h1b
      subst h2b
      rw [mentionsForName, List.filterMap_nil, optAppend_nil]
  | cons m rest ih =>
      intro agg agg2 rs h1 h2 n
      rw [buildAgg] at h1
      cases hs : aggStep rsf excl agg m with
      | error e => rw [hs] at h1; simp at h1
      | ok agg3 =>
          rw [hs, exc_bind_ok] at h1
          rw [survivingResults] at h2
          by_cases ho : isOverlapping m.groups excl
          · rw [if_pos ho] at h2
            have hskip : agg3 = agg := by
              rw [aggStep, if_pos ho] at hs
              injection hs with hpa
              exact hpa.symm
            rw [hskip] at h1
            exact ih agg agg2 rs h1 h2 n
          · rw [if_neg ho] at h2
            cases hd : dispatchMatch rsf m with
            | error e => rw [hd] at h2; simp at h2
            | ok v0 =>
                rw [hd, exc_bind_ok] at h2
                cases hsr : survivingResults rsf rest excl with
                | error e => rw [hsr] at h2; simp at h2
                | ok rest2 =>
                    rw [hsr, exc_bind_ok] at h2
                    rw [aggStep, if_neg ho, hd, exc_bind_ok] at hs
                    cases v0 with
                    | none =>
                        injection h2 with h2b
                        subst h2b
                        simp only [exc_pure_eq] at hs
                        injection hs with hpa
                        rw [← hpa] at h1
                        exact ih agg agg2 rest2 h1 hsr n
                    | some variant =>
                        injection h2 with h2b
                        subst h2b
                        cases hn : getName variant with
                        | error e => simp [hn] at hs
                        | ok nm =>
                            simp only [hn, exc_bind_ok, exc_pure_eq] at hs
                            injection hs with hpa
                            rw [← hpa] at h1
                            have hres := ih _ agg2 rest2 h1 hsr n
                            rw [hres]
                            rw [mentionsForName_cons]
                            by_cases hnn : n = nm
                            · have hcond : getName variant = .ok n := by
                                rw [hn, hnn]
                              rw [if_pos hcond]
                              show optAppend (lookupA (appendAt agg.varMentions nm
                                (makeMention m.groups m.patName)) n) _ = _
                              rw [lookupA_appendAt, if_pos hnn, optAppend_snoc]
                            · have hcond : ¬(getName variant = .ok n) := by
                                rw [hn]
                                intro hc
                                injection hc with hc2
                                exact hnn hc2.symm
                              rw [if_neg hcond]
                              show optAppend (lookupA (appendAt agg.varMentions nm
                                (makeMention m.groups m.patName)) n) _ = _
                              rw [lookupA_appendAt, if_neg hnn]

theorem buildAgg_desc_names (rsf : String → Option (String × Int × Int))
    (excl : List Nat) :
    ∀ (ms : List RawMatch) (agg agg2 : VarAgg),
      buildAgg rsf ms excl agg = .ok agg2 →
      (∀ n v, lookupA agg.varDescObj n = some v → getName v = .ok n) →
      (∀ n v, lookupA agg2.varDescObj n = some v → getName v = .ok n) := by
  intro ms
  induction ms with
  | nil =>
      intro agg agg2 h1 hinv
      rw [buildAgg] at h1
      injection h1 with h1b
      subst h1b
      exact hinv
  | cons m rest ih =>
      intro agg agg2 h1 hinv
      rw [buildAgg] at h1
      cases hs : aggStep rsf excl agg m with
      | error e => rw [hs] at h1; simp at h1
      | ok agg3 =>
          rw [hs, exc_bind_ok] at h1
          refine ih agg3 agg2 h1 ?_
          cases aggStep_cases rsf excl agg m agg3 hs with
          | inl heq => subst heq; exact hinv
          | inr hcases =>
              obtain ⟨variant, nm, _, _, hn, heq⟩ := hcases
              subst heq
              intro n v hl
              rw [lookupA_upsert] at hl
              by_cases hnn : n = nm
              · rw [if_pos hnn] at hl
                injection hl with hv
                subst hv
                rw [hn, hnn]
              · rw [if_neg hnn] at hl
                exact hinv n v hl

/-- C1 counterexample: the prot match `A123T` and the dna match
`c.123A>T` survive with different `seqType` but identical canonical
names (`getName` ignores `seqType` when `seqId` is unset), and
`findVariantDescriptions` in fact merges them into a single entry in
the `dna` bucket, with the `prot` bucket left empty: merging across
categories happens. -/
theorem mergeByName_cex :
    parseMatchSub protSubGroups "prot" true = .ok (some protSubVar) ∧
    parseMatchSub dnaSubGroups "dna" true = .ok (some dnaSubVar) ∧
    protSubVar.seqType ≠ dnaSubVar.seqType ∧
    getName protSubVar = getName dnaSubVar ∧
    findVariantDescriptions rsLookup0 [protSubMatch, dnaSubMatch] [] =
      .ok [("prot", []),
           ("dna", [(dnaSubVar, [protSubMention, dnaSubMention])]),
           ("dbSnp", []), ("intron", [])] :=
  ⟨by decide, by decide, by decide, by decide, by decide⟩

/-- C1 (amended): two surviving matches are merged under one canonical
VariantDescription exactly when their `getName()` values are equal —
the accumulated mention list of a canonical name consists of precisely
the mentions of the surviving matches bearing that name, and the
canonical variant stored for a name has that name.  The canonical-name
assignment is, however, NOT collision-free across the four
sequence-type categories: with `seqId` unset the name depends only on
`(origSeq, start, mutSeq)`, so equal-field variants of different
categories share a name and merge (see the counterexample). -/
theorem mergeByName (rsf : String → Option (String × Int × Int))
    (ms : List RawMatch) (excl : List Nat) (agg : VarAgg)
    (rs : List (VariantDescription × Mention))
    (h1 : buildAgg rsf ms excl { varDescObj := [], varMentions := [] } = .ok agg)
    (h2 : survivingResults rsf ms excl = .ok rs) :
    (∀ n, lookupA agg.varMentions n =
      (if mentionsForName rs n = [] then none else some (mentionsForName rs n))) ∧
    (∀ n v, lookupA agg.varDescObj n = some v → getName v = .ok n) := by
  constructor
  · intro n
    have hres := buildAgg_mentions rsf excl ms _ agg rs h1 h2 n
    rw [hres]
    show optAppend (lookupA [] n) _ = _
    rw [lookupA]
    cases hm : mentionsForName rs n with
    | nil => rw [optAppend, if_pos rfl]
    | cons x l =>
        rw [if_neg (List.cons_ne_nil x l)]
        rw [optAppend]
        intro hc
        exact absurd hc (List.cons_ne_nil x l)
  · exact buildAgg_desc_names rsf excl ms _ agg h1
      (by intro n v hl; rw [lookupA] at hl; exact absurd hl (by simp))

/-- C1 witness: the amended theorem applied to the concrete match list
`[protSubMatch, dnaSubMatch]`, evaluated at the shared canonical name
`p.A123T`. -/
theorem mergeByName_witness :
    (lookupA mergeAgg.varMentions "p.A123T" =
      (if mentionsForName mergeRs "p.A123T" = [] then none
       else some (mentionsForName mergeRs "p.A123T"))) ∧
    lookupA mergeAgg.varMentions "p.A123T" =
      some [protSubMention, dnaSubMention] :=
  ⟨(mergeByName rsLookup0 [protSubMatch, dnaSubMatch] [] mergeAgg mergeRs
      (by decide) (by decide)).1 "p.A123T",
   by decide⟩

/-! ### Output-dictionary keys (C10) -/

theorem bucketAdd_keys :
    ∀ (d : List (String × List (VariantDescription × List Mention)))
      (k : String) (v : VariantDescription × List Mention) (d2 : List _),
      bucketAdd d k v = .ok d2 → d2.map Prod.fst = d.map Prod.fst := by
  intro d
  induction d with
  | nil => intro k v d2 h; rw [bucketAdd] at h; exact absurd h (by simp)
  | cons pair rest ih =>
      obtain ⟨k2, vs⟩ := pair
      intro k v d2 h
      rw [bucketAdd] at h
      by_cases hk : k2 = k
      · rw [if_pos hk] at h
        injection h with h2
        subst h2
        simp
      · rw [if_neg hk] at h
        cases hb : bucketAdd rest k v with
        | error e => rw [hb] at h; simp at h
        | ok rest2 =>
            rw [hb, exc_bind_ok] at h
            injection h with h2
            subst h2
            simp [ih k v rest2 hb]
      
theorem bucketizeGo_keys (vdo : List (String × VariantDescription)) :
    ∀ (entries : List (String × List Mention))
      (d d2 : List (String × List (VariantDescription × List Mention))),
      bucketizeGo vdo entries d = .ok d2 → d2.map Prod.fst = d.map Prod.fst := by
  intro entries
  induction entries with
  | nil =>
      intro d d2 h
      rw [bucketizeGo] at h
      injection h with h2
      subst h2
      rfl
  | cons pair rest ih =>
      obtain ⟨name, mentions⟩ := pair
      intro d d2 h
      rw [bucketizeGo] at h
      cases hl : lookupA vdo name with
      | none => rw [hl] at h; simp at h
      | some variant =>
          rw [hl] at h
          simp only [req_some, exc_bind_ok] at h
          cases hb : bucketAdd d variant.seqType (variant, mentions) with
          | error e => rw [hb] at h; simp at h
          | ok d3 =>
              rw [hb, exc_bind_ok] at h
              rw [ih d3 d2 h]
              exact bucketAdd_keys d variant.seqType (variant, mentions) d3 hb

/-- C10: whenever `findVariantDescriptions` returns a dictionary (which
is exactly when every emitted variant's `seqType` is one of the four
initialised categories — any other category raises `KeyError`), the
dictionary has exactly the keys `prot`, `dna`, `dbSnp`, `intron`, in
that insertion order, each mapped to a (possibly empty) list. -/
theorem findVariantDescriptions_keys
    (rsf : String → Option (String × Int × Int)) (ms : List RawMatch)
    (excl : List Nat)
    (d : List (String × List (VariantDescription × List Mention)))
    (h : findVariantDescriptions rsf ms excl = .ok d) :
    d.map Prod.fst = ["prot", "dna", "dbSnp", "intron"] := by
  rw [findVariantDescriptions] at h
  cases hb : buildAgg rsf ms excl { varDescObj := [], varMentions := [] } with
  | error e => rw [hb] at h; simp at h
  | ok agg =>
      rw [hb, exc_bind_ok] at h
      exact bucketizeGo_keys agg.varDescObj agg.varMentions emptyBuckets d h

/-- C10 witness: the theorem applied to the empty document and to the
concrete two-match document of C1. -/
theorem findVariantDescriptions_keys_witness :
    findVariantDescriptions rsLookup0 [] [] = .ok emptyBuckets ∧
    emptyBuckets.map Prod.fst = ["prot", "dna", "dbSnp", "intron"] :=
  ⟨by decide,
   findVariantDescriptions_keys rsLookup0 [] [] emptyBuckets (by decide)⟩

/-! ### Sequence-verification policy (C6) -/

/-- C6: `isSeqCorrect` rejects every `NR_`-prefixed accession; for an
insertion variant with no wild-type sequence (on a non-`NR_` accession)
it returns exactly the caller-supplied `insertion_rv`, independent of
the stored sequences (the environment is universally quantified and the
result does not mention it); and for any other variant whose stored
sequence is too short to cover the variant's end position it returns
`False`. -/
theorem isSeqCorrect_policy {P : Type} :
    (∀ (env : GroundEnv P) (seqId : String) (v : VariantDescription)
       (rv : Bool), pyStartswith seqId "NR_" = true →
       isSeqCorrect env seqId v rv = .ok false) ∧
    (∀ (env : GroundEnv P) (seqId : String) (v : VariantDescription)
       (rv : Bool), pyStartswith seqId "NR_" = false →
       v.mutType = "ins" → (v.origSeq = none ∨ v.origSeq = some "") →
       isSeqCorrect env seqId v rv = .ok rv) ∧
    (∀ (env : GroundEnv P) (seqId : String) (v : VariantDescription)
       (rv : Bool) (seq : String), pyStartswith seqId "NR_" = false →
       ¬(v.mutType = "ins" ∧ (v.origSeq = none ∨ v.origSeq = some "")) →
       env.getSeq seqId = some seq →
       (seq.length : Int) < v.endPos - 1 →
       isSeqCorrect env seqId v rv = .ok false) := by
  refine ⟨?_, ?_, ?_⟩
  · intro env seqId v rv h
    rw [isSeqCorrect, if_pos h]
    rfl
  · intro env seqId v rv h h2 h3
    rw [isSeqCorrect, if_neg (by simp [h]), if_pos ⟨h2, h3⟩]
    rfl
  · intro env seqId v rv seq h h2 hseq hlen
    rw [isSeqCorrect, if_neg (by simp [h]), if_neg h2]
    simp only [hseq]
    rw [if_pos (by omega)]
    rfl

/-- C6 witness: the theorem applied to an `NR_` accession, to an
insertion with no wild-type sequence under both policies, and to a
variant whose stored sequence (length 3) cannot cover `end = 72`. -/
theorem isSeqCorrect_policy_witness :
    isSeqCorrect envNone "NR_1" vR71G true = .ok false ∧
    isSeqCorrect envNone "NM_1" vIns true = .ok true ∧
    isSeqCorrect envNone "NM_1" vIns false = .ok false ∧
    isSeqCorrect envSeq "NP_1" vR71G true = .ok false :=
  ⟨isSeqCorrect_policy.1 envNone "NR_1" vR71G true (by decide),
   isSeqCorrect_policy.2.1 envNone "NM_1" vIns true (by decide) (by decide)
     (by decide),
   isSeqCorrect_policy.2.1 envNone "NM_1" vIns false (by decide) (by decide)
     (by decide),
   isSeqCorrect_policy.2.2 envSeq "NP_1" vR71G true "MAB" (by decide)
     (by decide) (by decide) (by decide)⟩

/-! ### Genome projection (C7) and variant projection (C9) -/

/-- C7: in `mapToGenome`, a transcript with zero alignments contributes
no interval (and the variant drops out of the output list); the result
for a variant depends only on the FIRST alignment of its transcript;
and a successfully projected interval's start, end, thick-start and
thick-end fields each equal the raw projected value shifted by the
variant's stored signed offset (with the caller's name installed and
`origStr` appended). -/
theorem mapToGenome_spec {P : Type} :
    (∀ (psls : String → List P) (maker : P → Int → Int → Option BedRec)
       (bedName : String) (v : VariantDescription),
       psls (fmtOpt v.seqId) = [] →
       mapToGenomeOne psls maker bedName v = none) ∧
    (∀ (psls : String → List P) (maker : P → Int → Int → Option BedRec)
       (bedName : String) (vs1 vs2 : List VariantDescription)
       (v : VariantDescription),
       mapToGenomeOne psls maker bedName v = none →
       mapToGenome psls maker (vs1 ++ v :: vs2) bedName =
         mapToGenome psls maker (vs1 ++ vs2) bedName) ∧
    (∀ (psls psls2 : String → List P) (maker : P → Int → Int → Option BedRec)
       (bedName : String) (v : VariantDescription),
       (psls (fmtOpt v.seqId)).head? = (psls2 (fmtOpt v.seqId)).head? →
       mapToGenomeOne psls maker bedName v =
         mapToGenomeOne psls2 maker bedName v) ∧
    (∀ (psls : String → List P) (maker : P → Int → Int → Option BedRec)
       (bedName : String) (v : VariantDescription) (p : P) (rest : List P)
       (bed : BedRec),
       psls (fmtOpt v.seqId) = p :: rest →
       maker p v.start v.endPos = some bed →
       mapToGenomeOne psls maker bedName v =
         some ({ bed with
                 name := bedName
                 chromStart := bed.chromStart + v.offset
                 chromEnd := bed.chromEnd + v.offset
                 thickStart := bed.thickStart + v.offset
                 thickEnd := bed.thickEnd + v.offset }, v.origStr)) := by
  refine ⟨?_, ?_, ?_, ?_⟩
  · intro psls maker bedName v h
    rw [mapToGenomeOne, h]
  · intro psls maker bedName vs1 vs2 v h
    rw [mapToGenome, mapToGenome, List.filterMap_append, List.filterMap_append,
      List.filterMap_cons, h]
  · intro psls psls2 maker bedName v h
    cases hp : psls (fmtOpt v.seqId) with
    | nil =>
        cases hp2 : psls2 (fmtOpt v.seqId) with
        | nil => rw [mapToGenomeOne, hp, mapToGenomeOne, hp2]
        | cons q qs =>
            rw [hp, hp2] at h
            simp at h
    | cons p ps =>
        cases hp2 : psls2 (fmtOpt v.seqId) with
        | nil =>
            rw [hp, hp2] at h
            simp at h
        | cons q qs =>
            rw [hp, hp2] at h
            simp only [List.head?_cons, Option.some_inj] at h
            rw [mapToGenomeOne, hp, mapToGenomeOne, hp2, h]
  · intro psls maker bedName v p rest bed hp hm
    rw [mapToGenomeOne]
    simp only [hp, hm]

/-- C7 witness: the theorem applied to a variant with no alignments and
to `rnaW` (one alignment, offset `-3`). -/
theorem mapToGenome_spec_witness :
    pslsW (fmtOpt vR71G.seqId) = [] ∧
    mapToGenomeOne pslsW makerW "vid" vR71G = none ∧
    mapToGenomeOne pslsW makerW "vid" rnaW = some (c7bedShifted, "c.10A>G") := by
  refine ⟨by decide, mapToGenome_spec.1 pslsW makerW "vid" vR71G (by decide), ?_⟩
  have h := mapToGenome_spec.2.2.2 pslsW makerW "vid" rnaW () [] c7bedRaw
    (by decide) (by decide)
  rw [h]
  decide

/-- C9: `pslMapVariant` either returns `None` (when the interval
projects to nothing) or a new VariantDescription in which only `seqId`,
`start` and `end` are rewritten from the projection; `mutType`,
`seqType`, `geneId`, `origSeq`, `mutSeq`, `origStr` and `offset` are
copied unchanged.  The input variant is untouched (the embedding is
pure; the source deep-copies before mutating). -/
theorem pslMapVariant_frame {P : Type} (maker : P → Int → Int → Option BedRec)
    (v : VariantDescription) (psl : P) :
    (maker psl v.start v.endPos = none → pslMapVariant maker v psl = none) ∧
    (∀ bed, maker psl v.start v.endPos = some bed →
       pslMapVariant maker v psl =
         some { v with
                seqId := some bed.chrom
                start := bed.chromStart
                endPos := bed.chromEnd }) ∧
    (∀ v2, pslMapVariant maker v psl = some v2 →
       v2.mutType = v.mutType ∧ v2.seqType = v.seqType ∧ v2.geneId = v.geneId ∧
       v2.origSeq = v.origSeq ∧ v2.mutSeq = v.mutSeq ∧
       v2.origStr = v.origStr ∧ v2.offset = v.offset) := by
  refine ⟨?_, ?_, ?_⟩
  · intro h
    rw [pslMapVariant, h]
  · intro bed h
    rw [pslMapVariant, h]
  · intro v2 h
    rw [pslMapVariant] at h
    cases hm : maker psl v.start v.endPos with
    | none => rw [hm] at h; simp at h
    | some bed =>
        rw [hm] at h
        injection h with h2
        subst h2
        exact ⟨rfl, rfl, rfl, rfl, rfl, rfl, rfl⟩

/-- C9 witness: the theorem applied to the concrete projector `makerW`
and variant `rnaW`. -/
theorem pslMapVariant_frame_witness :
    pslMapVariant makerW rnaW () = some pslWitVar ∧
    (pslWitVar.mutType = rnaW.mutType ∧ pslWitVar.seqType = rnaW.seqType ∧
     pslWitVar.geneId = rnaW.geneId ∧ pslWitVar.origSeq = rnaW.origSeq ∧
     pslWitVar.mutSeq = rnaW.mutSeq ∧ pslWitVar.origStr = rnaW.origStr ∧
     pslWitVar.offset = rnaW.offset) :=
  ⟨by decide,
   (pslMapVariant_frame makerW rnaW ()).2.2 pslWitVar (by decide)⟩

/-! ### Grounding outcome lemmas (C8) -/


theorem geneYieldsProjection_intron {P : Type} (env : GroundEnv P)
    (v : VariantDescription) (g : Int) (rv : Bool) (hi : v.seqType = "intron") :
    geneYieldsProjection env v g rv = false := by
  unfold geneYieldsProjection
  rw [if_pos hi]

theorem joinNames_nil : joinNames [] = .ok "" := rfl

theorem mkSVD_ungrounded (snippet : String → Nat → Nat → String)
    (mentions : List Mention) (text seqType : String) :
    ∃ u, mkSeqVariantData snippet "" [] [] [] "" "" "" [] [] mentions text
        seqType "sub" = .ok u ∧
      u.chrom = "" ∧ u.start = "" ∧ u.endPos = "" ∧ u.geneSymbol = "" ∧
      u.entrezId = "" ∧ u.geneStarts = "" ∧ u.geneEnds = "" ∧
      u.seqType = seqType ∧
      u.mutStarts = String.intercalate "," (mentions.map (fun m => toString m.start)) ∧
      u.mutPatNames = String.intercalate "|" (mentions.map (fun m => m.patName)) :=
  ⟨_, rfl, rfl, rfl, rfl, rfl, rfl, rfl, rfl, rfl, rfl, rfl⟩

theorem exc_bind_ok_inv {α β : Type} {m : Except Unit α} {f : α → Except Unit β}
    {b : β} (h : (m >>= f) = .ok b) : ∃ a, m = .ok a ∧ f a = .ok b := by
  cases m with
  | error e => rw [exc_bind_error] at h; exact absurd h (by simp)
  | ok a => exact ⟨a, rfl, h⟩

theorem exc_ok_inj {α : Type} {a b : α}
    (h : (Except.ok a : Except Unit α) = .ok b) : a = b := by
  injection h


theorem groundGeneStep_char {P : Type} (env : GroundEnv P) (docId text : String)
    (v : VariantDescription) (mentions : List Mention)
    (snpMentions : List (VariantDescription × List Mention)) (rv : Bool)
    (st st1 : GroundState) (g : Int) (brk : Bool)
    (hni : v.seqType ≠ "intron")
    (h : groundGeneStep env docId text v mentions snpMentions rv st g = .ok (st1, brk)) :
    brk = false ∧
      st1.groundSuccess = (st.groundSuccess || geneYieldsProjection env v g rv) := by
  unfold groundGeneStep at h
  cases henv : env.entrezToSym g with
  | none =>
      simp only [henv, exc_pure_eq] at h
      have h2 := exc_ok_inj h
      injection h2 with ha hb
      subst ha; subst hb
      have hy : geneYieldsProjection env v g rv = false := by
        unfold geneYieldsProjection
        simp [hni, henv]
      simp [hy]
  | some sym =>
      simp only [henv] at h
      obtain ⟨dbIds, hc, h⟩ := exc_bind_ok_inv h
      by_cases hs : dbIds.2 = []
      · rw [if_pos hs, exc_pure_eq] at h
        have h2 := exc_ok_inj h
        injection h2 with ha hb
        subst ha; subst hb
        have hy : geneYieldsProjection env v g rv = false := by
          unfold geneYieldsProjection
          simp [hni, henv, hc, hs]
        simp [hy]
      · rw [if_neg hs, if_neg hni] at h
        by_cases hp : v.seqType = "prot"
        · rw [if_pos hp] at h
          by_cases hrf : dbIds.1 ≠ some "refseq"
          · rw [if_pos hrf, exc_bind_error] at h
            exact absurd h (by simp)
          · rw [if_neg hrf] at h
            obtain ⟨r, hm, h⟩ := exc_bind_ok_inv h
            cases r with
            | none =>
                simp only [exc_pure_eq, exc_bind_ok] at h
                have h2 := exc_ok_inj h
                injection h2 with ha hb
                subst ha; subst hb
                have hy : geneYieldsProjection env v g rv = false := by
                  unfold geneYieldsProjection
                  simp [hni, henv, hc, hs, hp, hm]
                simp [hy]
            | some cr =>
                simp only [exc_pure_eq, exc_bind_ok] at h
                obtain ⟨gv, hmk, h⟩ := exc_bind_ok_inv h
                have h2 := exc_ok_inj h
                injection h2 with ha hb
                subst ha; subst hb
                have hy : geneYieldsProjection env v g rv = true := by
                  unfold geneYieldsProjection
                  simp [hni, henv, hc, hs, hp, hm]
                simp [hy]
        · rw [if_neg hp] at h
          by_cases hd : v.seqType = "dna"
          · rw [if_pos hd] at h
            obtain ⟨cvs, hmm, h⟩ := exc_bind_ok_inv h
            simp only [exc_pure_eq, exc_bind_ok] at h
            obtain ⟨gv, hmk, h⟩ := exc_bind_ok_inv h
            have h2 := exc_ok_inj h
            injection h2 with ha hb
            subst ha; subst hb
            have hy : geneYieldsProjection env v g rv = true := by
              unfold geneYieldsProjection
              simp [hni, henv, hc, hs, hp]
            simp [hy]
          · rw [if_neg hd, exc_bind_error] at h
            exact absurd h (by simp)

theorem groundGeneStep_intron {P : Type} (env : GroundEnv P) (docId text : String)
    (v : VariantDescription) (mentions : List Mention)
    (snpMentions : List (VariantDescription × List Mention)) (rv : Bool)
    (st st1 : GroundState) (g : Int) (brk : Bool)
    (hi : v.seqType = "intron")
    (h : groundGeneStep env docId text v mentions snpMentions rv st g = .ok (st1, brk)) :
    st1.grounded = st.grounded ∧ st1.allBeds = st.allBeds ∧
      (st.groundSuccess = false → st1.groundSuccess = false) := by
  unfold groundGeneStep at h
  cases henv : env.entrezToSym g with
  | none =>
      simp only [henv, exc_pure_eq] at h
      have h2 := exc_ok_inj h
      injection h2 with ha hb
      subst ha
      exact ⟨rfl, rfl, fun hgs => hgs⟩
  | some sym =>
      simp only [henv] at h
      obtain ⟨dbIds, hc, h⟩ := exc_bind_ok_inv h
      by_cases hs : dbIds.2 = []
      · rw [if_pos hs, exc_pure_eq] at h
        have h2 := exc_ok_inj h
        injection h2 with ha hb
        subst ha
        exact ⟨rfl, rfl, fun hgs => hgs⟩
      · rw [if_neg hs, if_pos hi, exc_pure_eq] at h
        have h2 := exc_ok_inj h
        injection h2 with ha hb
        subst ha
        exact ⟨rfl, rfl, fun _ => rfl⟩

theorem groundLoop_success {P : Type} (env : GroundEnv P) (docId text : String)
    (v : VariantDescription) (mentions : List Mention)
    (snpMentions : List (VariantDescription × List Mention)) (rv : Bool)
    (hni : v.seqType ≠ "intron") :
    ∀ (genes : List Int) (st st' : GroundState),
      groundLoop env docId text v mentions snpMentions rv genes st = .ok st' →
      st'.groundSuccess =
        (st.groundSuccess || genes.any (fun g => geneYieldsProjection env v g rv))
  | [], st, st', h => by
      unfold groundLoop at h
      have h2 := exc_ok_inj h
      subst h2
      simp
  | g :: rest, st, st', h => by
      unfold groundLoop at h
      obtain ⟨sb, hstep, h⟩ := exc_bind_ok_inv h
      cases sb with
      | mk st1 brk =>
          obtain ⟨hbrk, hgs⟩ := groundGeneStep_char env docId text v mentions
            snpMentions rv st st1 g brk hni hstep
          subst hbrk
          simp only [Bool.false_eq_true, if_false] at h
          have ih := groundLoop_success env docId text v mentions snpMentions rv
            hni rest st1 st' h
          rw [ih, hgs, List.any_cons, Bool.or_assoc]

theorem groundLoop_intron {P : Type} (env : GroundEnv P) (docId text : String)
    (v : VariantDescription) (mentions : List Mention)
    (snpMentions : List (VariantDescription × List Mention)) (rv : Bool)
    (hi : v.seqType = "intron") :
    ∀ (genes : List Int) (st st' : GroundState),
      groundLoop env docId text v mentions snpMentions rv genes st = .ok st' →
      st'.grounded = st.grounded ∧ st'.allBeds = st.allBeds ∧
        (st.groundSuccess = false → st'.groundSuccess = false)
  | [], st, st', h => by
      unfold groundLoop at h
      have h2 := exc_ok_inj h
      subst h2
      exact ⟨rfl, rfl, fun hgs => hgs⟩
  | g :: rest, st, st', h => by
      unfold groundLoop at h
      obtain ⟨sb, hstep, h⟩ := exc_bind_ok_inv h
      cases sb with
      | mk st1 brk =>
          obtain ⟨hg, hb, hgs⟩ := groundGeneStep_intron env docId text v mentions
            snpMentions rv st st1 g brk hi hstep
          cases brk with
          | true =>
              simp only [if_true] at h
              have h2 := exc_ok_inj h
              subst h2
              exact ⟨hg, hb, hgs⟩
          | false =>
              simp only [Bool.false_eq_true, if_false] at h
              obtain ⟨ihg, ihb, ihgs⟩ := groundLoop_intron env docId text v mentions
                snpMentions rv hi rest st1 st' h
              exact ⟨ihg.trans hg, ihb.trans hb, fun h0 => ihgs (hgs h0)⟩

/-- **C8.** In `groundVariant`, the ungrounded-record slot of the result is
non-`None` exactly when no candidate gene yields a verified projection; any
emitted ungrounded record has empty chrom/start/end and gene fields, keeps the
variant's `seqType`, and carries the raw text mentions; and an `intron`
variant is never grounded: its grounded list and bed list are empty and an
ungrounded record is always emitted. -/
theorem groundVariant_ungrounded {P : Type} (env : GroundEnv P) (docId text : String)
    (v : VariantDescription) (mentions : List Mention)
    (snpMentions : List (VariantDescription × List Mention))
    (genes : List Int) (rv : Bool)
    (out : List SeqVariantData × Option SeqVariantData × List (BedRec × String))
    (h : groundVariant env docId text v mentions snpMentions genes rv = .ok out) :
    (out.2.1.isSome = true ↔
      genes.any (fun g => geneYieldsProjection env v g rv) = false) ∧
    (∀ u, out.2.1 = some u →
      u.chrom = "" ∧ u.start = "" ∧ u.endPos = "" ∧ u.geneSymbol = "" ∧
        u.entrezId = "" ∧ u.geneStarts = "" ∧ u.geneEnds = "" ∧
        u.seqType = v.seqType ∧
        u.mutStarts = String.intercalate "," (mentions.map (fun m => toString m.start)) ∧
        u.mutPatNames = String.intercalate "|" (mentions.map (fun m => m.patName))) ∧
    (v.seqType = "intron" → out.1 = [] ∧ out.2.2 = [] ∧ out.2.1.isSome = true) := by
  unfold groundVariant at h
  obtain ⟨stf, hloop, h⟩ := exc_bind_ok_inv h
  by_cases hgs : stf.groundSuccess = true
  · rw [if_pos hgs] at h
    simp only [exc_pure_eq, exc_bind_ok] at h
    have h2 := exc_ok_inj h
    subst h2
    by_cases hi : v.seqType = "intron"
    · obtain ⟨hg, hb, hgsf⟩ := groundLoop_intron env docId text v mentions
        snpMentions rv hi genes _ stf hloop
      have : stf.groundSuccess = false := hgsf rfl
      rw [this] at hgs
      exact absurd hgs (by simp)
    · have hany := groundLoop_success env docId text v mentions snpMentions rv
        hi genes _ stf hloop
      rw [hgs] at hany
      simp only [Bool.false_or] at hany
      refine ⟨?_, ?_, ?_⟩
      · constructor
        · intro hx
          exact absurd hx (by simp)
        · intro hx
          rw [← hany] at hx
          exact absurd hx (by simp)
      · intro u hu
        exact absurd hu (by simp)
      · intro hx
        exact absurd hx hi
  · rw [if_neg hgs] at h
    obtain ⟨u0, hmk, h⟩ := exc_bind_ok_inv h
    simp only [exc_pure_eq, exc_bind_ok] at h
    have h2 := exc_ok_inj h
    subst h2
    obtain ⟨u1, hmk1, p1, p2, p3, p4, p5, p6, p7, p8, p9, p10⟩ :=
      mkSVD_ungrounded env.snippet mentions text v.seqType
    have hu01 : u0 = u1 := exc_ok_inj ((hmk1.symm.trans hmk).symm)
    subst hu01
    have hgsf : stf.groundSuccess = false := by
      cases hgse : stf.groundSuccess with
      | false => rfl
      | true => exact absurd hgse hgs
    refine ⟨?_, ?_, ?_⟩
    · constructor
      · intro _
        by_cases hi : v.seqType = "intron"
        · rw [List.any_eq_false]
          intro g hg
          simp [geneYieldsProjection_intron env v g rv hi]
        · have hany := groundLoop_success env docId text v mentions snpMentions rv
            hi genes _ stf hloop
          rw [hgsf] at hany
          simp only [Bool.false_or] at hany
          exact hany.symm
      · intro _
        simp
    · intro u hu
      have : u0 = u := by
        injection hu
      subst this
      exact ⟨p1, p2, p3, p4, p5, p6, p7, p8, p9, p10⟩
    · intro hi
      obtain ⟨hg, hb, _⟩ := groundLoop_intron env docId text v mentions
        snpMentions rv hi genes _ stf hloop
      refine ⟨?_, ?_, by simp⟩
      · simpa using hg
      · simpa using hb

theorem groundVariant_ungrounded_witness :
    (vIntron.seqType = "intron" →
      ([] : List SeqVariantData) = [] ∧ ([] : List (BedRec × String)) = [] ∧
        (some ungroundedIntronRec : Option SeqVariantData).isSome = true) ∧
    ((some ungroundedProtRec : Option SeqVariantData).isSome = true ↔
      ([672] : List Int).any (fun g => geneYieldsProjection envNone vR71G g false) = false) :=
  ⟨(groundVariant_ungrounded envNone "d0" "t" vIntron [] [] [672] false
      ([], some ungroundedIntronRec, []) (by rfl)).2.2,
   (groundVariant_ungrounded envNone "d0" "t" vR71G [] [] [672] false
      ([], some ungroundedProtRec, []) (by rfl)).1⟩

end VarFinder
